import Mathlib

/-! # Merovius/systemd: socket activation and watchdog

A shallow embedding of `socket_activation.go` and `watchdog.go`.

* Go's `int`, `int64` and `time.Duration` are 64-bit two's complement: they are
  modelled as `Int` with `wrapInt` applied where the source adds or multiplies.
  `uintptr` is modelled as `Nat` below `2^64`.
* The `osmock` interface (`osmock.go`) is the record `OS`: the environment, the
  process id, the raw syscall (a state transformer over an arbitrary kernel
  state), `Fstat`, and the two `net` entry points the package calls.
* Ghost state: the list of raw syscalls issued, and the list of descriptor
  indexes handed to `storeFd`.
-/

namespace Systemd

/-! ## Machine integers -/

/-- Two's complement wrap-around of a 64-bit signed integer. -/
def wrapInt (x : Int) : Int := (x + 2 ^ 63) % 2 ^ 64 - 2 ^ 63

/-- The conversion `uintptr(x)` of an `int`. -/
def uintptr (x : Int) : Nat := (x % 2 ^ 64).toNat

/-- Largest value of Go's `int`. -/
def maxInt : Int := 2 ^ 63 - 1

/-! ## strconv.Atoi -/

/-- Value of a decimal digit, `none` for any other character. -/
def digitVal (c : Char) : Option Nat :=
  if 48 ≤ c.toNat ∧ c.toNat ≤ 57 then some (c.toNat - 48) else none

/-- Accumulates decimal digits onto `acc`; `none` as soon as a character is not a digit. -/
def parseDigits : List Char → Nat → Option Nat
  | [], acc => some acc
  | c :: cs, acc =>
    match digitVal c with
    | none => none
    | some d => parseDigits cs (acc * 10 + d)

/-- The unsigned part of a decimal literal: at least one digit, digits only. -/
def parseUint (cs : List Char) : Option Nat :=
  match cs with
  | [] => none
  | _ => parseDigits cs 0

/-- Go's `strconv.Atoi` on a 64-bit platform (library function, from its
documentation): an optional sign followed by one or more decimal digits, the
value within the range of `int`; `none` stands for a non-nil error. -/
def Atoi (s : String) : Option Int :=
  match s.toList with
  | [] => none
  | c :: cs =>
    if c = '-' then
      match parseUint cs with
      | none => none
      | some n => if n ≤ 2 ^ 63 then some (-(n : Int)) else none
    else
      match parseUint (if c = '+' then cs else c :: cs) with
      | none => none
      | some n => if n < 2 ^ 63 then some (n : Int) else none

/-! ## Go types and handles -/

/-- The fragment of Go's type language that `GetPassedFiles` and `storeFd` inspect. -/
inductive GoType where
  /-- interface `net.Conn` -/
  | Conn
  /-- interface `net.Listener` -/
  | Listener
  /-- struct `net.IPConn` -/
  | IPConn
  /-- struct `net.TCPConn` -/
  | TCPConn
  /-- struct `net.UDPConn` -/
  | UDPConn
  /-- struct `net.UnixConn` -/
  | UnixConn
  /-- struct `net.TCPListener` -/
  | TCPListener
  /-- struct `net.UnixListener` -/
  | UnixListener
  /-- struct `os.File` -/
  | File
  /-- any other type that is neither a pointer nor a slice, such as `int` -/
  | other
  /-- pointer type `*t` -/
  | ptr (t : GoType)
  /-- slice type `[]t` -/
  | slice (t : GoType)
  deriving DecidableEq, Repr

/-- The values of `reflect.Kind` that the source compares against. -/
inductive Kind where
  | Ptr
  | Slice
  | Interface
  | Struct
  | Other
  deriving DecidableEq, Repr

/-- The method `reflect.Type.Kind`. -/
def GoType.Kind : GoType → Kind
  | .ptr _ => .Ptr
  | .slice _ => .Slice
  | .Conn => .Interface
  | .Listener => .Interface
  | .other => .Other
  | _ => .Struct

/-- A handle produced by the package: its dynamic type (`*os.File`,
`*net.TCPListener`, ...) and the OS descriptor it was opened from. -/
structure Handle where
  typ : GoType
  fd : Nat
  deriving DecidableEq, Repr

/-! ## Errors -/

/-- Go `error` values produced by the package. -/
inductive Error where
  /-- error returned by `strconv.Atoi` for the given text -/
  | atoi (s : String)
  /-- `errors.New` and `fmt.Errorf` messages -/
  | msg (s : String)
  /-- a non-zero `syscall.Errno` -/
  | errno (n : Nat)
  /-- error returned by `net.FileConn` or `net.FileListener` for a descriptor -/
  | net (fd : Nat)
  /-- `fmt.Errorf("Unhandled type %v", rv.Type())` for a target of this type -/
  | unhandled (t : GoType)
  deriving DecidableEq, Repr

/-! ## The operating system capability -/

/-- A raw system call as issued through `osm.Syscall`, with the first result
register and the errno it returned. -/
structure SysCall where
  trap : Nat
  a1 : Nat
  a2 : Nat
  a3 : Nat
  r1 : Nat
  errno : Nat
  deriving DecidableEq, Repr

/-- Result registers of a raw system call. -/
structure SysRet where
  r1 : Nat
  r2 : Nat
  errno : Nat
  deriving DecidableEq, Repr

/-- The `osmock` capability together with the `net` entry points used by the
package. `σ` is the kernel state that raw system calls read and change. -/
structure OS (σ : Type) where
  /-- `Getenv(key)` -/
  Getenv : String → String
  /-- `Getpid()` -/
  Getpid : Int
  /-- `Syscall(trap, a1, a2, a3)` run in a kernel state -/
  Syscall : σ → Nat → Nat → Nat → Nat → SysRet × σ
  /-- `Fstat(fd, &st)`: the `st.Mode` written and the error returned -/
  Fstat : Int → Nat × Option Error
  /-- `net.FileConn` on a file wrapping the descriptor: the dynamic type of the
  connection, or `none` for an error -/
  FileConn : Nat → Option GoType
  /-- `net.FileListener` on a file wrapping the descriptor: the dynamic type of
  the listener, or `none` for an error -/
  FileListener : Nat → Option GoType

/-! ## Constants of the syscall package (linux/amd64) -/

def listenFdsStart : Int := 3
def SYS_FCNTL : Nat := 72
def F_GETFL : Nat := 3
def F_SETFL : Nat := 4
def FD_CLOEXEC : Nat := 1
def S_IFMT : Nat := 0xf000
def S_IFIFO : Nat := 0x1000
def S_IFCHR : Nat := 0x2000
def S_IFDIR : Nat := 0x4000
def S_IFBLK : Nat := 0x6000
def S_IFREG : Nat := 0x8000
def S_IFLNK : Nat := 0xa000
def S_IFSOCK : Nat := 0xc000

/-! ## listenFds -/

/-- What `listenFds` leaves behind: the returned count and error, the kernel
state after its system calls, and the system calls it issued, in order. -/
structure Discovery (σ : Type) where
  num_fds : Int
  err : Option Error
  st : σ
  calls : List SysCall

/-- Puts system calls issued earlier in front of a result. -/
def Discovery.after {σ : Type} (cs : List SysCall) (d : Discovery σ) : Discovery σ :=
  { d with calls := cs ++ d.calls }

/-- The loop `for i := listenFdsStart; i < listenFdsStart+l; i++` of `listenFds`,
entered at index `i` with `n` iterations left (`n` is the distance from `i` to
the loop bound); `l` is the value returned when the loop runs to its end. -/
def listenFdsLoop {σ : Type} (os : OS σ) (l : Int) : Nat → Int → σ → Discovery σ
  | 0, _, s => ⟨l, none, s, []⟩
  | n + 1, i, s =>
    let r := os.Syscall s SYS_FCNTL (uintptr i) F_GETFL 0
    let c1 : SysCall := ⟨SYS_FCNTL, uintptr i, F_GETFL, 0, r.1.r1, r.1.errno⟩
    if r.1.errno ≠ 0 then
      ⟨0, some (.errno r.1.errno), r.2, [c1]⟩
    else if r.1.r1 &&& FD_CLOEXEC ≠ 0 then
      (listenFdsLoop os l n (i + 1) r.2).after [c1]
    else
      let flags := r.1.r1 ||| FD_CLOEXEC
      let r2 := os.Syscall r.2 SYS_FCNTL (uintptr i) F_SETFL flags
      let c2 : SysCall := ⟨SYS_FCNTL, uintptr i, F_SETFL, flags, r2.1.r1, r2.1.errno⟩
      if r2.1.errno ≠ 0 then
        ⟨0, some (.errno r2.1.errno), r2.2, [c1, c2]⟩
      else
        (listenFdsLoop os l n (i + 1) r2.2).after [c1, c2]

/-- The function `listenFds` of `socket_activation.go`. -/
def listenFds {σ : Type} (os : OS σ) (s : σ) : Discovery σ :=
  let e := os.Getenv "LISTEN_PID"
  if e = "" then ⟨0, none, s, []⟩
  else
    match Atoi e with
    | none => ⟨0, some (.atoi e), s, []⟩
    | some l =>
      if l ≠ os.Getpid then ⟨0, none, s, []⟩
      else
        let e := os.Getenv "LISTEN_FDS"
        if e = "" then ⟨0, none, s, []⟩
        else
          match Atoi e with
          | none => ⟨0, some (.atoi e), s, []⟩
          | some l =>
            if l < 0 then ⟨0, some (.msg "Got negative number of filedescriptors"), s, []⟩
            else
              listenFdsLoop os l (wrapInt (listenFdsStart + l) - listenFdsStart).toNat
                listenFdsStart s

/-! ## Opening one descriptor -/

/-- A Go result pair `(value, err)` of which exactly one side is meaningful. -/
inductive Res (α : Type) where
  | ok (a : α)
  | err (e : Error)
  deriving DecidableEq, Repr

/-- The function `getFile`. The `*os.File` that `osm.NewFile(uintptr(fd), "")`
returns is represented by the descriptor it wraps. -/
def getFile {σ : Type} (os : OS σ) (num : Int) : Res Handle :=
  let fd := wrapInt (listenFdsStart + num)
  let st := os.Fstat fd
  match st.2 with
  | some e => .err e
  | none =>
    if st.1 &&& S_IFIFO = 0 ∧ st.1 &&& S_IFREG = 0 ∧ st.1 &&& S_IFCHR = 0 then
      .err (.msg "File descriptor is not a fifo or special file")
    else
      .ok ⟨.ptr .File, uintptr fd⟩

/-- The function `getConn`. -/
def getConn {σ : Type} (os : OS σ) (num : Int) : Res Handle :=
  let fd := wrapInt (listenFdsStart + num)
  match os.FileConn (uintptr fd) with
  | none => .err (.net (uintptr fd))
  | some t => .ok ⟨t, uintptr fd⟩

/-- The type assertion `c.(*net.X)` after a fallible open, as written in
`getIPConn`, `getTCPConn`, `getUDPConn`, `getUnixConn`, `getTCPListener` and
`getUnixListener`. -/
def assertType (r : Res Handle) (t : GoType) (m : String) : Res Handle :=
  match r with
  | .err e => .err e
  | .ok c => if c.typ = t then .ok c else .err (.msg m)

def getIPConn {σ : Type} (os : OS σ) (num : Int) : Res Handle :=
  assertType (getConn os num) (.ptr .IPConn) "Not a IPConn"

def getTCPConn {σ : Type} (os : OS σ) (num : Int) : Res Handle :=
  assertType (getConn os num) (.ptr .TCPConn) "Not a TCPConn"

def getUDPConn {σ : Type} (os : OS σ) (num : Int) : Res Handle :=
  assertType (getConn os num) (.ptr .UDPConn) "Not a UDPConn"

def getUnixConn {σ : Type} (os : OS σ) (num : Int) : Res Handle :=
  assertType (getConn os num) (.ptr .UnixConn) "Not a UnixConn"

/-- The function `getListener`. -/
def getListener {σ : Type} (os : OS σ) (num : Int) : Res Handle :=
  let fd := wrapInt (listenFdsStart + num)
  match os.FileListener (uintptr fd) with
  | none => .err (.net (uintptr fd))
  | some t => .ok ⟨t, uintptr fd⟩

def getTCPListener {σ : Type} (os : OS σ) (num : Int) : Res Handle :=
  assertType (getListener os num) (.ptr .TCPListener) "Not a TCPListener"

def getUnixListener {σ : Type} (os : OS σ) (num : Int) : Res Handle :=
  assertType (getListener os num) (.ptr .UnixListener) "Not a UnixListener"

/-! ## storeFd -/

/-- A `reflect.Value` as far as `storeFd` looks at it: its `Type()` and whether
it is settable (`CanSet()`). -/
structure Value where
  typ : GoType
  canSet : Bool
  deriving DecidableEq, Repr

/-- The `reflect.Type.Elem` method on pointer and slice types. -/
def GoType.Elem : GoType → GoType
  | .ptr t => t
  | .slice t => t
  | t => t

/-- How a call of `storeFd` ends. -/
inductive StoreResult where
  /-- returned nil after `target.Set` of this handle -/
  | stored (h : Handle)
  /-- returned this error, the target left alone -/
  | failed (e : Error)
  /-- `target.Set` panicked: the target is not settable -/
  | panicked
  deriving DecidableEq, Repr

/-- The call `target.Set(reflect.ValueOf(c))` that follows a successful open:
`reflect.Value.Set` panics on a Value that is not settable. -/
def Value.Set (target : Value) (r : Res Handle) : StoreResult :=
  match r with
  | .err e => .failed e
  | .ok c => if target.canSet then .stored c else .panicked

/-- The function `storeFd`: dispatch on `target.Type()`. -/
def storeFd {σ : Type} (os : OS σ) (num : Int) (target : Value) : StoreResult :=
  if target.typ = .Conn then target.Set (getConn os num)
  else if target.typ = .ptr .IPConn then target.Set (getIPConn os num)
  else if target.typ = .ptr .TCPConn then target.Set (getTCPConn os num)
  else if target.typ = .ptr .UDPConn then target.Set (getUDPConn os num)
  else if target.typ = .ptr .UnixConn then target.Set (getUnixConn os num)
  else if target.typ = .Listener then target.Set (getListener os num)
  else if target.typ = .ptr .TCPListener then target.Set (getTCPListener os num)
  else if target.typ = .ptr .UnixListener then target.Set (getUnixListener os num)
  else if target.typ = .ptr .File then target.Set (getFile os num)
  else .failed (.msg "Unknown target type")

/-! ## GetPassedFiles -/

/-- One argument of `GetPassedFiles`: a value of dynamic type `typ`, neither a
nil pointer nor the nil interface (those are in `Arg`), with the memory it
gives access to. `val` is the variable a pointer to a
non-slice points to (`none` is nil). `elems` is the slice itself for a slice
argument and the slice variable pointed to for a pointer to a slice (`none` is
the nil slice); each element is nil or a handle. Fields that do not apply to
`typ` are never read. -/
structure Target where
  typ : GoType
  val : Option Handle
  elems : Option (List (Option Handle))
  deriving DecidableEq, Repr

/-- The method `reflect.Value.Len` on a slice. -/
def sliceLen (elems : Option (List (Option Handle))) : Nat :=
  match elems with
  | none => 0
  | some xs => xs.length

/-- How `GetPassedFiles` ends: the memory behind the targets and, as ghost
state, the descriptor indexes handed to `storeFd` in order. -/
inductive Outcome where
  /-- returned `(n, err)` -/
  | ret (n : Int) (err : Option Error) (targets : List Target) (log : List Nat)
  /-- run-time panic -/
  | panicked (targets : List Target) (log : List Nat)
  /-- the model ran out of fuel -/
  | outOfFuel
  deriving DecidableEq, Repr

/-- How an inner loop over the elements of a slice ends. -/
inductive FillResult where
  /-- the loop condition failed with the global index at `i` -/
  | done (i : Nat) (log : List Nat)
  /-- `storeFd` returned an error -/
  | failed (e : Error) (log : List Nat)
  /-- `storeFd` panicked -/
  | panicked (log : List Nat)
  deriving DecidableEq, Repr

/-- The inner loop `for j := 0; j < rv.Len() && i < fds; j++` over a slice with
element type `e`, entered with `n` elements left. Each round calls
`storeFd(i, rv.Index(j).Addr())`: `Addr` yields a Value of type `*e` that is not
settable, so no round writes an element; a round that returns nil does `i++`. -/
def fillSlice {σ : Type} (os : OS σ) (fds : Int) (e : GoType) :
    Nat → Nat → List Nat → FillResult
  | 0, i, lg => .done i lg
  | n + 1, i, lg =>
    if (i : Int) < fds then
      match storeFd os i ⟨.ptr e, false⟩ with
      | .failed err => .failed err (lg ++ [i])
      | .panicked => .panicked (lg ++ [i])
      | .stored _ => fillSlice os fds e n (i + 1) (lg ++ [i])
    else .done i lg

/-- The variable `k` of `GetPassedFiles`: initialised to 0 and never assigned again. -/
def k : Nat := 0

/-- The loop `for i := 0; i < fds; i++` of `GetPassedFiles`. The index `i` stays
below `2^63`, so it is a natural number here. Every round advances `i`, hence
`fds` rounds of fuel are enough. -/
def bindLoop {σ : Type} (os : OS σ) (fds : Int) :
    Nat → Nat → List Target → List Nat → Outcome
  | 0, i, ts, lg => if (i : Int) < fds then .outOfFuel else .ret fds none ts lg
  | fuel + 1, i, ts, lg =>
    if (i : Int) < fds then
      match ts[k]? with
      | none => .panicked ts lg
      | some t =>
        if t.typ.Kind = .Ptr ∧ t.typ.Elem.Kind ≠ .Slice then
          match storeFd os i ⟨t.typ.Elem, true⟩ with
          | .failed err => .ret 0 (some err) ts (lg ++ [i])
          | .panicked => .panicked ts (lg ++ [i])
          | .stored h =>
            bindLoop os fds fuel (i + 1) (ts.set k { t with val := some h }) (lg ++ [i])
        else if t.typ.Kind = .Slice then
          match fillSlice os fds t.typ.Elem (sliceLen t.elems) i lg with
          | .failed err lg1 => .ret 0 (some err) ts lg1
          | .panicked lg1 => .panicked ts lg1
          | .done i1 lg1 => bindLoop os fds fuel (i1 + 1) ts lg1
        else if t.typ.Kind = .Ptr ∧ t.typ.Elem.Kind = .Slice then
          let elems :=
            match t.elems with
            | none => some (List.replicate (fds - i).toNat none)
            | some xs => some xs
          let ts1 := ts.set k { t with elems := elems }
          match fillSlice os fds t.typ.Elem.Elem (sliceLen elems) i lg with
          | .failed err lg1 => .ret 0 (some err) ts1 lg1
          | .panicked lg1 => .panicked ts1 lg1
          | .done i1 lg1 => bindLoop os fds fuel (i1 + 1) ts1 lg1
        else .ret 0 (some (.unhandled t.typ)) ts lg
    else .ret fds none ts lg

/-- The function `GetPassedFiles`, run in kernel state `s` on the given targets. -/
def GetPassedFiles {σ : Type} (os : OS σ) (s : σ) (targets : List Target) : Outcome :=
  let d := listenFds os s
  match d.err with
  | some e => .ret d.num_fds (some e) targets []
  | none => bindLoop os d.num_fds d.num_fds.toNat 0 targets []

/-! ## Watchdog -/

/-- The constant `time.Microsecond`, in nanoseconds. -/
def Microsecond : Int := 1000

/-- The function `IsWatchdogActive`: `(active, duration in nanoseconds, err)`. -/
def IsWatchdogActive {σ : Type} (os : OS σ) : Bool × Int × Option Error :=
  let e := os.Getenv "WATCHDOG_PID"
  if e = "" then (false, 0, none)
  else
    match Atoi e with
    | none => (false, 0, some (.msg ("Could not parse WATCHDOG_PID " ++ e)))
    | some l =>
      if l ≠ os.Getpid then (false, 0, none)
      else
        let e := os.Getenv "WATCHDOG_USEC"
        if e = "" then (false, 0, some (.msg "WATCHDOG_PID set, but not WATCHDOG_USEC"))
        else
          match Atoi e with
          | none => (false, 0, some (.msg ("Could not parse WATCHDOG_USEC " ++ e)))
          | some l =>
            if l ≤ 0 then (false, 0, some (.msg ("Invalid interval " ++ toString l)))
            else (true, wrapInt (l * Microsecond), none)

/-! ## Concrete environments -/

/-- An environment holding only `LISTEN_PID` and `LISTEN_FDS`. -/
def envListen (pid fds : String) : String → String :=
  fun key => if key = "LISTEN_PID" then pid else if key = "LISTEN_FDS" then fds else ""

/-- An environment holding only `WATCHDOG_PID` and `WATCHDOG_USEC`. -/
def envWatchdog (pid usec : String) : String → String :=
  fun key => if key = "WATCHDOG_PID" then pid else if key = "WATCHDOG_USEC" then usec else ""

/-- A kernel whose state is the flag word of every descriptor: `F_GETFL` reports
the word, `F_SETFL` stores its argument, and no call fails. -/
def flagKernel (s : Nat → Nat) (_trap a1 a2 a3 : Nat) : SysRet × (Nat → Nat) :=
  if a2 = F_GETFL then (⟨s a1, 0, 0⟩, s)
  else if a2 = F_SETFL then (⟨0, 0, 0⟩, Function.update s a1 a3)
  else (⟨0, 0, 0⟩, s)

/-- Process 1234 with `LISTEN_PID=1234` and `LISTEN_FDS=fds`, every descriptor a
regular file (mode `S_IFREG|0644`), so that `net` rejects it. -/
def filesOS (fds : String) : OS (Nat → Nat) where
  Getenv := envListen "1234" fds
  Getpid := 1234
  Syscall := flagKernel
  Fstat := fun _ => (S_IFREG ||| 0o644, none)
  FileConn := fun _ => none
  FileListener := fun _ => none

/-- Process 1234 with `LISTEN_PID=1234` and `LISTEN_FDS=fds`, every descriptor a
listening TCP socket (mode `S_IFSOCK|0777`). -/
def listenersOS (fds : String) : OS (Nat → Nat) where
  Getenv := envListen "1234" fds
  Getpid := 1234
  Syscall := flagKernel
  Fstat := fun _ => (S_IFSOCK ||| 0o777, none)
  FileConn := fun _ => some (.ptr .TCPConn)
  FileListener := fun _ => some (.ptr .TCPListener)

/-- Process `pid` with the given watchdog variables. -/
def watchdogOS (pid : Int) (wpid usec : String) : OS (Nat → Nat) where
  Getenv := envWatchdog wpid usec
  Getpid := pid
  Syscall := flagKernel
  Fstat := fun _ => (0, none)
  FileConn := fun _ => none
  FileListener := fun _ => none

/-- Descriptor flags with nothing set. -/
def noFlags : Nat → Nat := fun _ => 0

/-- Process 5678 that inherited `LISTEN_PID=1234` and `LISTEN_FDS=5` meant for
another process. -/
def strangerOS : OS (Nat → Nat) where
  Getenv := envListen "1234" "5"
  Getpid := 5678
  Syscall := flagKernel
  Fstat := fun _ => (0, none)
  FileConn := fun _ => none
  FileListener := fun _ => none

/-- Checker for the sequence of system calls the discovery loop is meant to
issue on the `n` descriptors from `fd` upwards when no call fails: for each
descriptor in ascending order one successful `F_GETFL` query, followed by one
successful `F_SETFL` exactly when the queried word lacks `FD_CLOEXEC`, its
argument being that word with the bit added. -/
def visits : Nat → Nat → List SysCall → Bool
  | _, 0, cs => cs.isEmpty
  | _, _ + 1, [] => false
  | fd, n + 1, q :: cs =>
    q.trap == SYS_FCNTL && q.a1 == fd && q.a2 == F_GETFL && q.a3 == 0 && q.errno == 0 &&
      (if q.r1 &&& FD_CLOEXEC != 0 then visits (fd + 1) n cs
       else
        match cs with
        | [] => false
        | w :: cs1 =>
          w.trap == SYS_FCNTL && w.a1 == fd && w.a2 == F_SETFL &&
            w.a3 == (q.r1 ||| FD_CLOEXEC) && w.errno == 0 && visits (fd + 1) n cs1)

/-! ## Notification client (notify.go) -/

/-- The part of Go's `net` package that `notify.go` calls. `τ` is the state of
the socket layer; a `*net.UnixConn` is identified by a number. -/
structure Net (τ : Type) where
  /-- `net.ResolveUnixAddr("unixgram", e)`: the address, or `none` for an error -/
  ResolveUnixAddr : String → Option String
  /-- `net.DialUnix("unixgram", nil, addr)`: the connection, or `none` for an error -/
  DialUnix : τ → String → Option Nat × τ
  /-- `conn.Write(b)`: the error returned (`none` is nil) -/
  Write : τ → Nat → String → Option Error × τ
  /-- `conn.Close()` -/
  Close : τ → Nat → τ

/-- What the notification client does to the outside world (ghost trace). -/
inductive NetEvent where
  /-- `osm.Getenv(key)` -/
  | getenv (key : String)
  /-- `net.ResolveUnixAddr` on the text -/
  | resolve (e : String)
  /-- `net.DialUnix` on the address -/
  | dial (addr : String)
  /-- `conn.Write` of one datagram -/
  | write (conn : Nat) (data : String)
  /-- `conn.Close` -/
  | close (conn : Nat)
  deriving DecidableEq, Repr

/-- The package variable `notifyConn` (`none` is nil), the state of the socket
layer, and the trace of what the client has done so far. -/
structure NotifyState (τ : Type) where
  notifyConn : Option Nat
  sock : τ
  events : List NetEvent

/-- Appends events to the trace. -/
def NotifyState.log {τ : Type} (st : NotifyState τ) (evs : List NetEvent) : NotifyState τ :=
  { st with events := st.events ++ evs }

/-- Number of `net.DialUnix` calls in a trace. -/
def dials (evs : List NetEvent) : Nat :=
  (evs.filter fun ev => match ev with | .dial _ => true | _ => false).length

/-- The datagrams written in a trace, in order. -/
def written (evs : List NetEvent) : List String :=
  evs.filterMap fun ev => match ev with | .write _ d => some d | _ => none

/-- The function `NotifyConn`. -/
def NotifyConn {σ τ : Type} (os : OS σ) (nt : Net τ) (st : NotifyState τ) :
    Res Nat × NotifyState τ :=
  let e := os.Getenv "NOTIFY_SOCKET"
  let st1 := st.log [.getenv "NOTIFY_SOCKET"]
  if e = "" then (.err (.msg "No notification socket found"), st1)
  else if e.toList.head? ≠ some '@' ∧ e.toList.head? ≠ some '/' then
    (.err (.msg "Notification socket must be an abstract socket or an absolute path"), st1)
  else
    match nt.ResolveUnixAddr e with
    | none => (.err (.msg "Could not resolve socket addres"), st1.log [.resolve e])
    | some addr =>
      let r := nt.DialUnix st1.sock addr
      let st2 := { st1.log [.resolve e, .dial addr] with sock := r.2 }
      match r.1 with
      | none => (.err (.msg "Could not connect to notification socket"), st2)
      | some conn => (.ok conn, st2)

/-- The tail of `Notify`: `notifyConn.Write([]byte(state))` on the cached
connection `c`, followed by the deferred function that closes and forgets the
connection when the write failed. -/
def notifyWrite {τ : Type} (nt : Net τ) (st : NotifyState τ) (c : Nat) (state : String) :
    Option Error × NotifyState τ :=
  let r := nt.Write st.sock c state
  let st1 := { st.log [.write c state] with sock := r.2 }
  match r.1 with
  | some err => (some err, { st1.log [.close c] with sock := nt.Close r.2 c, notifyConn := none })
  | none => (none, st1)

/-- The function `Notify` (the mutex `notifyMtx` is held from entry to return). -/
def Notify {σ τ : Type} (os : OS σ) (nt : Net τ) (st : NotifyState τ) (state : String) :
    Option Error × NotifyState τ :=
  match st.notifyConn with
  | none =>
    match NotifyConn os nt st with
    | (.err err, st1) => (some err, { st1 with notifyConn := none })
    | (.ok conn, st1) => notifyWrite nt { st1 with notifyConn := some conn } conn state
  | some c => notifyWrite nt st c state

/-- The function `NotifyReady`. -/
def NotifyReady {σ τ : Type} (os : OS σ) (nt : Net τ) (st : NotifyState τ) :
    Option Error × NotifyState τ :=
  Notify os nt st "READY=1"

/-- The test `strings.ContainsAny(status, "\n\r")`. -/
def containsNewline (status : String) : Bool :=
  status.toList.any fun c => c = '\n' || c = '\r'

/-- The function `NotifyStatus`. -/
def NotifyStatus {σ τ : Type} (os : OS σ) (nt : Net τ) (st : NotifyState τ) (status : String) :
    Option Error × NotifyState τ :=
  if containsNewline status then (some (.msg "Status may not contain newlines"), st)
  else Notify os nt st ("STATUS=" ++ status)

/-- The function `NotifyErrno`; `errno` is a `uint`. -/
def NotifyErrno {σ τ : Type} (os : OS σ) (nt : Net τ) (st : NotifyState τ) (errno : Nat) :
    Option Error × NotifyState τ :=
  Notify os nt st ("ERRNO=" ++ toString errno)

/-- The function `NotifyMainPid`. -/
def NotifyMainPid {σ τ : Type} (os : OS σ) (nt : Net τ) (st : NotifyState τ) (pid : Int) :
    Option Error × NotifyState τ :=
  Notify os nt st ("MAINPID=" ++ toString pid)

/-- The function `NotifyWatchdog`. -/
def NotifyWatchdog {σ τ : Type} (os : OS σ) (nt : Net τ) (st : NotifyState τ) :
    Option Error × NotifyState τ :=
  Notify os nt st "WATCHDOG=1"

/-! ## AutoWatchdog -/

/-- What a call of `AutoWatchdog` leaves behind: the three returned values, the
interval handed to the goroutine it started (`none` when no goroutine was
started), and the state of the notification client at return. -/
structure WatchdogRun (τ : Type) where
  active : Bool
  interval : Int
  err : Option Error
  pinger : Option Int
  st : NotifyState τ

/-- The function `AutoWatchdog`. `interval / 2` on a `time.Duration` truncates
towards zero. The goroutine `go func(interval time.Duration)` is recorded by
the interval it is started with; its ticks are not modelled. -/
def AutoWatchdog {σ τ : Type} (os : OS σ) (nt : Net τ) (st : NotifyState τ) : WatchdogRun τ :=
  let r := IsWatchdogActive os
  if r.1 = false ∨ r.2.2 ≠ none then ⟨r.1, 0, r.2.2, none, st⟩
  else
    let interval := Int.tdiv r.2.1 2
    let p := NotifyWatchdog os nt st
    match p.1 with
    | some err => ⟨false, 0, some err, none, p.2⟩
    | none => ⟨r.1, interval, p.1, some interval, p.2⟩

/-! ## Concrete environments for the notification client -/

/-- An environment given as a list of bindings; unset variables read as empty. -/
def envOf (kvs : List (String × String)) : String → String :=
  fun key => match kvs.find? fun kv => kv.1 = key with
    | some kv => kv.2
    | none => ""

/-- Process `pid` with the given environment and no passed descriptors of interest. -/
def procOS (pid : Int) (kvs : List (String × String)) : OS (Nat → Nat) where
  Getenv := envOf kvs
  Getpid := pid
  Syscall := flagKernel
  Fstat := fun _ => (0, none)
  FileConn := fun _ => none
  FileListener := fun _ => none

/-- A socket layer on which everything succeeds; its state counts the
connections dialled, and a connection is identified by its rank. -/
def okNet : Net Nat where
  ResolveUnixAddr := fun e => some e
  DialUnix := fun n _ => (some n, n + 1)
  Write := fun n _ _ => (none, n)
  Close := fun n _ => n

/-- A socket layer on which dialling succeeds and every write fails. -/
def brokenNet : Net Nat where
  ResolveUnixAddr := fun e => some e
  DialUnix := fun n _ => (some n, n + 1)
  Write := fun n _ _ => (some (.errno 111), n)
  Close := fun n _ => n

/-- The notification client before its first use. -/
def freshNotify : NotifyState Nat := ⟨none, 0, []⟩

/-- Environment of service 77 started by a manager that set the watchdog
interval to `usec` and a notification socket. -/
def serviceEnv (usec : String) : List (String × String) :=
  [("WATCHDOG_PID", "77"), ("WATCHDOG_USEC", usec), ("NOTIFY_SOCKET", "/run/systemd/notify")]

/-- Process 1234 with `LISTEN_PID=1234` and `LISTEN_FDS=3`: descriptors 3 and 5 are
regular files, `Fstat` on descriptor 4 fails with `EBADF`. -/
def secondBrokenOS : OS (Nat → Nat) where
  Getenv := envListen "1234" "3"
  Getpid := 1234
  Syscall := flagKernel
  Fstat := fun fd => if fd = 4 then (0, some (.errno 9)) else (S_IFREG ||| 0o644, none)
  FileConn := fun _ => none
  FileListener := fun _ => none

/-- The log of an outcome: the descriptor indexes handed to `storeFd`. -/
def Outcome.log : Outcome → List Nat
  | .ret _ _ _ lg => lg
  | .panicked _ lg => lg
  | .outOfFuel => []

/-- The slice a pointer-to-slice target holds once the loop has reached it at
index `i`: a nil slice is replaced by `reflect.MakeSlice(_, fds-i, fds-i)`. -/
def allocSlice (fds : Int) (i : Nat) (elems : Option (List (Option Handle))) :
    Option (List (Option Handle)) :=
  match elems with
  | none => some (List.replicate (fds - i).toNat none)
  | some xs => some xs

/-- The dynamic type the `net` package reports for descriptor index `num` when
a target of type `*x` is filled: `net.FileListener` is asked for the listener
types, `net.FileConn` for the connection types; `none` is an error. -/
def openedType {σ : Type} (os : OS σ) (x : GoType) (num : Int) : Option GoType :=
  if x = .TCPListener ∨ x = .UnixListener then
    os.FileListener (uintptr (wrapInt (listenFdsStart + num)))
  else os.FileConn (uintptr (wrapInt (listenFdsStart + num)))

/-- What an inherited descriptor is, as far as `net` tells descriptors apart. -/
inductive FdKind where
  /-- a regular file -/
  | regularFile
  /-- a TCP socket in accepting mode (after `listen`) -/
  | tcpListening
  /-- a connected TCP socket, not in accepting mode -/
  | tcpConnected
  deriving DecidableEq, Repr

/-- The socket is in accepting mode (`SO_ACCEPTCONN`). -/
def FdKind.accepting : FdKind → Bool
  | .tcpListening => true
  | _ => false

/-- Go's `net.FileListener` (library function): it fails on a descriptor that is
not a socket and builds the listener from the address family and type of the
socket. It does not test whether the socket is in accepting mode, so every TCP
socket comes back as a `*net.TCPListener`. -/
def netFileListener : FdKind → Option GoType
  | .regularFile => none
  | .tcpListening => some (.ptr .TCPListener)
  | .tcpConnected => some (.ptr .TCPListener)

/-- Go's `net.FileConn` (library function): it fails on a descriptor that is not
a socket and returns a `*net.TCPConn` for a TCP socket. -/
def netFileConn : FdKind → Option GoType
  | .regularFile => none
  | .tcpListening => some (.ptr .TCPConn)
  | .tcpConnected => some (.ptr .TCPConn)

/-- The `st.Mode` that `Fstat` reports for a descriptor. -/
def fdMode : FdKind → Nat
  | .regularFile => S_IFREG ||| 0o644
  | _ => S_IFSOCK ||| 0o777

/-- Process 1234 with `LISTEN_PID=1234` and `LISTEN_FDS=fds` whose descriptor
`fd` is of kind `kind fd`, with `net` behaving as the library does. -/
def kindOS (fds : String) (kind : Nat → FdKind) : OS (Nat → Nat) where
  Getenv := envListen "1234" fds
  Getpid := 1234
  Syscall := flagKernel
  Fstat := fun fd => (fdMode (kind (uintptr fd)), none)
  FileConn := fun fd => netFileConn (kind fd)
  FileListener := fun fd => netFileListener (kind fd)

/-- Process 1234 with `LISTEN_PID=1234` and `LISTEN_FDS=fds`, every descriptor a
connected TCP socket. -/
def connectedOS (fds : String) : OS (Nat → Nat) :=
  kindOS fds fun _ => .tcpConnected

/-! ## Arguments that may be nil -/

/-- An argument of `GetPassedFiles` as the caller may write it: a value that is
neither a nil pointer nor the nil interface (a `Target`), a nil pointer, or the
nil interface value. -/
inductive Arg where
  /-- a value of a type, other than a nil pointer, with the memory it gives
  access to -/
  | value (t : Target)
  /-- the nil pointer of type `*t`: `reflect.ValueOf` has kind `Ptr` and its
  `Elem()` is the zero Value -/
  | nilPtr (t : GoType)
  /-- the nil interface value, as in `GetPassedFiles(nil)`: `reflect.ValueOf` is
  the zero Value, of kind `Invalid` -/
  | nilInterface
  deriving DecidableEq, Repr

/-- How `GetPassedFiles` ends on arguments that may be nil. -/
inductive OutcomeAny where
  /-- returned `(n, err)` -/
  | ret (n : Int) (err : Option Error) (targets : List Arg) (log : List Nat)
  /-- run-time panic -/
  | panicked (targets : List Arg) (log : List Nat)
  /-- the model ran out of fuel -/
  | outOfFuel
  deriving DecidableEq, Repr

/-- An outcome on non-nil targets read as an outcome on arguments. -/
def Outcome.any : Outcome → OutcomeAny
  | .ret n err ts lg => .ret n err (ts.map Arg.value) lg
  | .panicked ts lg => .panicked (ts.map Arg.value) lg
  | .outOfFuel => .outOfFuel

/-- The loop `for i := 0; i < fds; i++` of `GetPassedFiles` on arguments that may
be nil. On the nil interface value none of the three kind tests holds and the
final `return` evaluates `rv.Type()` on the zero Value, which panics. On a nil
pointer `rv.Elem()` is the zero Value, whose kind is not `Slice`, so the first
branch calls `storeFd(i, rv.Elem())`, which panics at `target.Type()`. On a
non-nil value the round is the round of `bindLoop`. -/
def bindLoopAny {σ : Type} (os : OS σ) (fds : Int) :
    Nat → Nat → List Arg → List Nat → OutcomeAny
  | 0, i, ts, lg => if (i : Int) < fds then .outOfFuel else .ret fds none ts lg
  | fuel + 1, i, ts, lg =>
    if (i : Int) < fds then
      match ts[k]? with
      | none => .panicked ts lg
      | some .nilInterface => .panicked ts lg
      | some (.nilPtr _) => .panicked ts (lg ++ [i])
      | some (.value t) =>
        if t.typ.Kind = .Ptr ∧ t.typ.Elem.Kind ≠ .Slice then
          match storeFd os i ⟨t.typ.Elem, true⟩ with
          | .failed err => .ret 0 (some err) ts (lg ++ [i])
          | .panicked => .panicked ts (lg ++ [i])
          | .stored h =>
            bindLoopAny os fds fuel (i + 1) (ts.set k (.value { t with val := some h }))
              (lg ++ [i])
        else if t.typ.Kind = .Slice then
          match fillSlice os fds t.typ.Elem (sliceLen t.elems) i lg with
          | .failed err lg1 => .ret 0 (some err) ts lg1
          | .panicked lg1 => .panicked ts lg1
          | .done i1 lg1 => bindLoopAny os fds fuel (i1 + 1) ts lg1
        else if t.typ.Kind = .Ptr ∧ t.typ.Elem.Kind = .Slice then
          let ts1 := ts.set k (.value { t with elems := allocSlice fds i t.elems })
          match fillSlice os fds t.typ.Elem.Elem (sliceLen (allocSlice fds i t.elems)) i lg with
          | .failed err lg1 => .ret 0 (some err) ts1 lg1
          | .panicked lg1 => .panicked ts1 lg1
          | .done i1 lg1 => bindLoopAny os fds fuel (i1 + 1) ts1 lg1
        else .ret 0 (some (.unhandled t.typ)) ts lg
    else .ret fds none ts lg

/-- The function `GetPassedFiles` on arguments that may be nil; on non-nil
arguments it is `GetPassedFiles` above. -/
def GetPassedFilesAny {σ : Type} (os : OS σ) (s : σ) (targets : List Arg) : OutcomeAny :=
  let d := listenFds os s
  match d.err with
  | some e => .ret d.num_fds (some e) targets []
  | none => bindLoopAny os d.num_fds d.num_fds.toNat 0 targets []

/-! ## The flag pass as the kernel answers it -/

/-- Whether the flag pass over the `n` descriptors from `fd` upwards meets a
failing system call when the kernel starts in state `s`: each descriptor in
ascending order is queried for its flags, and the flags are set anew when
`FD_CLOEXEC` is lacking; the pass stops at the first call that fails. This is
the pass the discovery is meant to make, counted in natural numbers. -/
def flagPassFails {σ : Type} (os : OS σ) : Nat → Nat → σ → Bool
  | 0, _, _ => false
  | n + 1, fd, s =>
    let r := os.Syscall s SYS_FCNTL fd F_GETFL 0
    if r.1.errno ≠ 0 then true
    else if r.1.r1 &&& FD_CLOEXEC ≠ 0 then flagPassFails os n (fd + 1) r.2
    else
      let r2 := os.Syscall r.2 SYS_FCNTL fd F_SETFL (r.1.r1 ||| FD_CLOEXEC)
      if r2.1.errno ≠ 0 then true else flagPassFails os n (fd + 1) r2.2

/-- Process 1234 with `LISTEN_PID=1234` and `LISTEN_FDS=fds` that inherited no
descriptor at all: every `fcntl` fails with `EBADF`. -/
def deadOS (fds : String) : OS Unit where
  Getenv := envListen "1234" fds
  Getpid := 1234
  Syscall := fun s _ _ _ _ => (⟨2 ^ 64 - 1, 0, 9⟩, s)
  Fstat := fun _ => (0, some (.errno 9))
  FileConn := fun _ => none
  FileListener := fun _ => none

/-- Process 1234 with `LISTEN_PID=1234` and `LISTEN_FDS=fds` on a kernel that
answers every flag query with flags lacking `FD_CLOEXEC` and fails every flag
set with `EPERM`, as the `SetflErr` case of `TestListenFds`. -/
def setflErrOS (fds : String) : OS Unit where
  Getenv := envListen "1234" fds
  Getpid := 1234
  Syscall := fun s _ _ a2 _ => (if a2 = F_GETFL then ⟨0, 0, 0⟩ else ⟨0, 0, 1⟩, s)
  Fstat := fun _ => (0, some (.errno 9))
  FileConn := fun _ => none
  FileListener := fun _ => none

/-! ## Environment masks (misc.go) -/

/-- The constant `ListenPid` of type `EnvMask`. -/
def ListenPid : Nat := 1 <<< 0
/-- The constant `ListenFds`. -/
def ListenFds : Nat := 1 <<< 1
/-- The constant `NotifySocket`. -/
def NotifySocket : Nat := 1 <<< 2
/-- The constant `WatchdogPid`. -/
def WatchdogPid : Nat := 1 <<< 3
/-- The constant `WatchdogUsec`. -/
def WatchdogUsec : Nat := 1 <<< 4
/-- The constant `Listen = ListenPid | ListenFds`. -/
def Listen : Nat := ListenPid ||| ListenFds
/-- The constant `Watchdog = WatchdogPid | WatchdogUsec`. -/
def Watchdog : Nat := WatchdogPid ||| WatchdogUsec

/-- The process environment as `ClearEnv` changes it: the value of every
variable (unset variables read as empty) and, as ghost state, the `Setenv`
calls made so far. -/
structure EnvState where
  env : String → String
  setenvs : List (String × String)

/-- The closure `unset` of `ClearEnv`: `osm.Setenv(str, "")`, the error ignored.
`Setenv` replaces the value of the one variable it is given. -/
def unset (e : EnvState) (str : String) : EnvState :=
  ⟨Function.update e.env str "", e.setenvs ++ [(str, "")]⟩

/-- The function `ClearEnv`; `except` is an `EnvMask`. -/
def ClearEnv (e : EnvState) (except : Nat) : EnvState :=
  let e1 := if except &&& ListenPid = 0 then unset e "LISTEN_PID" else e
  let e2 := if except &&& ListenFds = 0 then unset e1 "LISTEN_FDS" else e1
  let e3 := if except &&& NotifySocket = 0 then unset e2 "NOTIFY_SOCKET" else e2
  let e4 := if except &&& WatchdogPid = 0 then unset e3 "WATCHDOG_PID" else e3
  if except &&& WatchdogUsec = 0 then unset e4 "WATCHDOG_USEC" else e4

/-- The environment of the repository's test: the five variables set to
`"foobar"`, everything else empty. -/
def foobarEnv : EnvState :=
  ⟨envOf [("LISTEN_PID", "foobar"), ("LISTEN_FDS", "foobar"), ("NOTIFY_SOCKET", "foobar"),
    ("WATCHDOG_PID", "foobar"), ("WATCHDOG_USEC", "foobar")], []⟩

/-! ## The wire format of a notification -/

/-- No line feed and no carriage return in the text. -/
def noLineBreak (s : String) : Bool :=
  s.toList.all fun c => c != '\n' && c != '\r'

/-- Scans for the first `=`; `n` counts the characters of the key seen so far. -/
def keyValueFrom : List Char → Nat → Bool
  | [], _ => false
  | c :: cs, n => if c = '=' then decide (0 < n) else keyValueFrom cs (n + 1)

/-- The text has the form `KEY=VALUE`: a non-empty key, free of `=`, followed
by `=`. -/
def isKeyValue (s : String) : Bool :=
  keyValueFrom s.toList 0

/-! ## Lemmas on the integer parser and the discovery loop -/

/-- Every value `Atoi` accepts lies in the range of a 64-bit `int`. -/
theorem Atoi_range (s : String) (n : Int) (h : Atoi s = some n) :
    -2 ^ 63 ≤ n ∧ n < 2 ^ 63 := by
  unfold Atoi at h
  split at h
  · simp at h
  · split_ifs at h <;>
    · split at h
      · simp at h
      · split_ifs at h with h1
        simp only [Option.some.injEq] at h
        subst h
        constructor <;> omega

/-- The empty text is not an integer. -/
theorem Atoi_empty : Atoi "" = none := by decide

/-- The discovery loop fails exactly when one of its system calls fails, returns
0 on failure and `l` otherwise, and only issues `fcntl` queries and sets on the
descriptors of its range. -/
theorem listenFdsLoop_spec {σ : Type} (os : OS σ) (l : Int) (n : Nat) :
    ∀ (i : Int) (s : σ),
      ((listenFdsLoop os l n i s).err ≠ none ↔
          ∃ c ∈ (listenFdsLoop os l n i s).calls, c.errno ≠ 0) ∧
      ((listenFdsLoop os l n i s).err ≠ none → (listenFdsLoop os l n i s).num_fds = 0) ∧
      ((listenFdsLoop os l n i s).err = none → (listenFdsLoop os l n i s).num_fds = l) ∧
      (∀ c ∈ (listenFdsLoop os l n i s).calls,
          c.trap = SYS_FCNTL ∧ (c.a2 = F_GETFL ∨ c.a2 = F_SETFL) ∧
            ∃ j : Int, i ≤ j ∧ j < i + n ∧ c.a1 = uintptr j) := by
  induction n with
  | zero => intro i s; simp [listenFdsLoop]
  | succ n ih =>
    intro i s
    unfold listenFdsLoop
    simp only []
    split_ifs with h1 h2 h3
    · simp [h1]
      exact ⟨i, le_refl _, by omega, rfl⟩
    · obtain ⟨a, b, c, d⟩ := ih (i + 1) (os.Syscall s SYS_FCNTL (uintptr i) F_GETFL 0).2
      simp only [Discovery.after]
      refine ⟨?_, b, c, ?_⟩
      · rw [a]; simp at h1; simp [h1]
      · intro x hx
        simp at hx
        rcases hx with hx | hx
        · subst hx; exact ⟨rfl, Or.inl rfl, i, le_refl _, by omega, rfl⟩
        · obtain ⟨p, q, j, hj1, hj2, hj3⟩ := d x hx
          exact ⟨p, q, j, by omega, by push_cast; omega, hj3⟩
    · simp [h3]
      exact ⟨i, le_refl _, by omega, rfl⟩
    · obtain ⟨a, b, c, d⟩ := ih (i + 1) (os.Syscall (os.Syscall s SYS_FCNTL (uintptr i) F_GETFL 0).2 SYS_FCNTL (uintptr i) F_SETFL ((os.Syscall s SYS_FCNTL (uintptr i) F_GETFL 0).1.r1 ||| FD_CLOEXEC)).2
      simp only [Discovery.after]
      refine ⟨?_, b, c, ?_⟩
      · rw [a]; simp at h1 h3; simp [h1, h3]
      · intro x hx
        simp at hx
        rcases hx with hx | hx | hx
        · subst hx; exact ⟨rfl, Or.inl rfl, i, le_refl _, by omega, rfl⟩
        · subst hx; exact ⟨rfl, Or.inr rfl, i, le_refl _, by omega, rfl⟩
        · obtain ⟨p, q, j, hj1, hj2, hj3⟩ := d x hx
          exact ⟨p, q, j, by omega, by push_cast; omega, hj3⟩

/-- The conversion to `uintptr` keeps a non-negative `int`. -/
theorem uintptr_of_nonneg (j : Int) (h0 : 0 ≤ j) (h1 : j < 2 ^ 64) : (uintptr j : Int) = j := by
  unfold uintptr
  rw [Int.emod_eq_of_lt h0 h1]
  exact Int.toNat_of_nonneg h0

/-- The conversion to `uintptr` of a non-negative `int`, as a natural number. -/
theorem uintptr_toNat (j : Int) (h0 : 0 ≤ j) (h1 : j < 2 ^ 64) : uintptr j = j.toNat := by
  unfold uintptr
  rw [Int.emod_eq_of_lt h0 h1]

/-- When none of its system calls fails and the index does not overflow, the
discovery loop issues exactly the calls `visits` accepts. -/
theorem listenFdsLoop_visits {σ : Type} (os : OS σ) (l : Int) (n : Nat) :
    ∀ (i : Int) (s : σ), 0 ≤ i → i + n ≤ 2 ^ 63 →
      (∀ c ∈ (listenFdsLoop os l n i s).calls, c.errno = 0) →
      visits i.toNat n (listenFdsLoop os l n i s).calls = true := by
  induction n with
  | zero => intro i s _ _ _; simp [listenFdsLoop, visits]
  | succ n ih =>
    intro i s h0 h1 hc
    have hu : uintptr i = i.toNat := uintptr_toNat i h0 (by push_cast at h1; omega)
    have hi1 : (i + 1).toNat = i.toNat + 1 := by omega
    unfold listenFdsLoop at hc ⊢
    generalize os.Syscall s SYS_FCNTL (uintptr i) F_GETFL 0 = r at hc ⊢
    dsimp only at hc ⊢
    split_ifs at hc ⊢ with h2 h3 h4
    · exfalso
      exact h2 (hc _ (List.mem_cons_self _ _))
    · dsimp only [Discovery.after] at hc ⊢
      have hrec := ih (i + 1) r.2 (by omega) (by push_cast at h1 ⊢; omega)
        (fun c hcm => hc c (List.mem_append_right _ hcm))
      simp only [ne_eq, not_not] at h2
      simp [visits, hu, h2, h3, hi1] at hrec ⊢
      exact hrec
    · exfalso
      exact h4 (hc _ (List.mem_cons_of_mem _ (List.mem_cons_self _ _)))
    · dsimp only [Discovery.after] at hc ⊢
      generalize os.Syscall r.2 SYS_FCNTL (uintptr i) F_SETFL (r.1.r1 ||| FD_CLOEXEC) = r2
        at hc h4 ⊢
      have hrec := ih (i + 1) r2.2 (by omega) (by push_cast at h1 ⊢; omega)
        (fun c hcm => hc c (List.mem_append_right _ hcm))
      simp only [ne_eq, not_not] at h2 h3 h4
      simp [visits, hu, h2, h3, h4, hi1] at hrec ⊢
      exact hrec

/-- A flag word with `FD_CLOEXEC` OR-ed in has the bit. -/
theorem or_cloexec_has_bit (x : Nat) : (x ||| FD_CLOEXEC) &&& FD_CLOEXEC ≠ 0 := by
  unfold FD_CLOEXEC
  rw [Nat.and_one_is_mod]
  have h : (x ||| 1).testBit 0 = true := by simp [Nat.testBit_or]
  rw [Nat.testBit_zero] at h
  have := of_decide_eq_true h
  omega

/-- On the flag-storing kernel the discovery loop leaves `FD_CLOEXEC` set on
every descriptor of its range and every other flag word as it was. -/
theorem listenFdsLoop_flagKernel_state (os : OS (Nat → Nat)) (hk : os.Syscall = flagKernel)
    (l : Int) (n : Nat) :
    ∀ (i : Int) (s : Nat → Nat), 0 ≤ i → i + n ≤ 2 ^ 63 →
      (∀ fd, i.toNat ≤ fd → fd < i.toNat + n →
        (listenFdsLoop os l n i s).st fd &&& FD_CLOEXEC ≠ 0) ∧
      (∀ fd, fd < i.toNat ∨ i.toNat + n ≤ fd → (listenFdsLoop os l n i s).st fd = s fd) := by
  induction n with
  | zero =>
    intro i s _ _
    refine ⟨fun fd h1 h2 => by omega, fun fd _ => by simp [listenFdsLoop]⟩
  | succ n ih =>
    intro i s h0 h1
    have hu : uintptr i = i.toNat := uintptr_toNat i h0 (by push_cast at h1; omega)
    have hi1 : (i + 1).toNat = i.toNat + 1 := by omega
    have hgs : F_SETFL ≠ F_GETFL := by decide
    unfold listenFdsLoop
    simp only [hk, flagKernel, if_true, hgs, if_false, ne_eq, not_true_eq_false,
      Discovery.after, hu]
    by_cases hb : s i.toNat &&& FD_CLOEXEC = 0
    · simp only [hb, not_true_eq_false, if_false]
      obtain ⟨a, b⟩ := ih (i + 1) (Function.update s i.toNat (s i.toNat ||| FD_CLOEXEC))
        (by omega) (by push_cast at h1 ⊢; omega)
      rw [hi1] at a b
      constructor
      · intro fd h2 h3
        by_cases hfd : fd = i.toNat
        · rw [b fd (by omega), hfd]
          simp only [Function.update_same]
          exact or_cloexec_has_bit _
        · exact a fd (by omega) (by omega)
      · intro fd h2
        rw [b fd (by omega)]
        exact Function.update_noteq (by omega) _ _
    · simp only [hb, not_false_eq_true, if_true]
      obtain ⟨a, b⟩ := ih (i + 1) s (by omega) (by push_cast at h1 ⊢; omega)
      rw [hi1] at a b
      constructor
      · intro fd h2 h3
        by_cases hfd : fd = i.toNat
        · rw [b fd (by omega), hfd]
          exact hb
        · exact a fd (by omega) (by omega)
      · intro fd h2
        exact b fd (by omega)

/-- On the flag-storing kernel, when every descriptor of the range already has
`FD_CLOEXEC`, the discovery loop issues queries only. -/
theorem listenFdsLoop_flagKernel_quiet (os : OS (Nat → Nat)) (hk : os.Syscall = flagKernel)
    (l : Int) (n : Nat) :
    ∀ (i : Int) (s : Nat → Nat), 0 ≤ i → i + n ≤ 2 ^ 63 →
      (∀ fd, i.toNat ≤ fd → fd < i.toNat + n → s fd &&& FD_CLOEXEC ≠ 0) →
      ∀ c ∈ (listenFdsLoop os l n i s).calls, c.a2 = F_GETFL := by
  induction n with
  | zero => intro i s _ _ _ c hc; simp [listenFdsLoop] at hc
  | succ n ih =>
    intro i s h0 h1 hs c hc
    have hu : uintptr i = i.toNat := uintptr_toNat i h0 (by push_cast at h1; omega)
    have hi1 : (i + 1).toNat = i.toNat + 1 := by omega
    have hb := hs i.toNat (le_refl _) (by omega)
    unfold listenFdsLoop at hc
    simp only [hk, flagKernel, if_true, ne_eq, not_true_eq_false, if_false,
      Discovery.after, hu, hb, not_false_eq_true] at hc
    simp only [List.singleton_append, List.mem_cons] at hc
    rcases hc with hc | hc
    · rw [hc]
    · exact ih (i + 1) s (by omega) (by push_cast at h1 ⊢; omega)
        (fun fd h2 h3 => hs fd (by omega) (by omega)) c hc

/-- With a matching pid and a count `n >= 0` below the overflow, `listenFds` is
the discovery loop over `n` descriptors from `listenFdsStart`. -/
theorem listenFds_eq_loop {σ : Type} (os : OS σ) (s : σ) (n : Int)
    (hpid : Atoi (os.Getenv "LISTEN_PID") = some os.Getpid)
    (hfds : Atoi (os.Getenv "LISTEN_FDS") = some n)
    (hn : 0 ≤ n) (hbound : n + 3 < 2 ^ 63) :
    listenFds os s = listenFdsLoop os n n.toNat listenFdsStart s := by
  have hp : os.Getenv "LISTEN_PID" ≠ "" := by
    intro h; rw [h, Atoi_empty] at hpid; simp at hpid
  have hf : os.Getenv "LISTEN_FDS" ≠ "" := by
    intro h; rw [h, Atoi_empty] at hfds; simp at hfds
  have hcount : (wrapInt (listenFdsStart + n) - listenFdsStart).toNat = n.toNat := by
    unfold wrapInt listenFdsStart
    omega
  unfold listenFds
  simp [hp, hf, hpid, hfds, not_lt.mpr hn, hcount]

/-- On the flag-storing kernel no system call of the discovery loop fails. -/
theorem listenFdsLoop_flagKernel_ok (os : OS (Nat → Nat)) (hk : os.Syscall = flagKernel)
    (l : Int) (n : Nat) :
    ∀ (i : Int) (s : Nat → Nat), ∀ c ∈ (listenFdsLoop os l n i s).calls, c.errno = 0 := by
  induction n with
  | zero => intro i s c hc; simp [listenFdsLoop] at hc
  | succ n ih =>
    intro i s c hc
    have hgs : F_SETFL ≠ F_GETFL := by decide
    unfold listenFdsLoop at hc
    simp only [hk, flagKernel, if_true, hgs, if_false, ne_eq, not_true_eq_false,
      Discovery.after] at hc
    split_ifs at hc
    · simp only [List.cons_append, List.nil_append, List.mem_cons] at hc
      rcases hc with h | h | h
      · rw [h]
      · rw [h]
      · exact ih _ _ c h
    · simp only [List.cons_append, List.nil_append, List.mem_cons] at hc
      rcases hc with h | h
      · rw [h]
      · exact ih _ _ c h

/-! ## Lemmas on the distribution loop -/

/-- The inner loop never moves the global index backwards. -/
theorem fillSlice_done_le {σ : Type} (os : OS σ) (fds : Int) (e : GoType) (n : Nat) :
    ∀ (i : Nat) (lg : List Nat) (i1 : Nat) (lg1 : List Nat),
      fillSlice os fds e n i lg = .done i1 lg1 → i ≤ i1 := by
  induction n with
  | zero =>
    intro i lg i1 lg1 h
    simp [fillSlice] at h
    omega
  | succ n ih =>
    intro i lg i1 lg1 h
    unfold fillSlice at h
    split_ifs at h
    · split at h
      · simp at h
      · simp at h
      · have := ih _ _ _ _ h
        omega
    · simp at h
      omega

/-- With at least `fds - i` rounds of fuel the distribution loop ends by itself. -/
theorem bindLoop_total {σ : Type} (os : OS σ) (fds : Int) (fuel : Nat) :
    ∀ (i : Nat) (ts : List Target) (lg : List Nat),
      fds ≤ (i : Int) + fuel → bindLoop os fds fuel i ts lg ≠ .outOfFuel := by
  induction fuel with
  | zero =>
    intro i ts lg h
    have : ¬ (i : Int) < fds := by simp at h; omega
    simp [bindLoop, this]
  | succ fuel ih =>
    intro i ts lg h
    unfold bindLoop
    split_ifs with h1
    · split
      · simp
      · split_ifs
        · split
          · simp
          · simp
          · exact ih _ _ _ (by push_cast at h ⊢; omega)
        · split
          · simp
          · simp
          · rename_i hfs
            have := fillSlice_done_le _ _ _ _ _ _ _ _ hfs
            exact ih _ _ _ (by push_cast at h ⊢; omega)
        · simp only []
          split
          · simp
          · simp
          · rename_i hfs
            have := fillSlice_done_le _ _ _ _ _ _ _ _ hfs
            exact ih _ _ _ (by push_cast at h ⊢; omega)
        · simp
    · simp

/-- The fuel given to the distribution loop is always enough: `GetPassedFiles`
either returns or panics. -/
theorem GetPassedFiles_total {σ : Type} (os : OS σ) (s : σ) (targets : List Target) :
    GetPassedFiles os s targets ≠ .outOfFuel := by
  unfold GetPassedFiles
  simp only []
  split
  · simp
  · apply bindLoop_total
    simp

/-- On a Value that is not settable `storeFd` never stores: it returns an error
or panics. -/
theorem storeFd_unsettable {σ : Type} (os : OS σ) (num : Int) (t : GoType) (h : Handle) :
    storeFd os num ⟨t, false⟩ ≠ .stored h := by
  unfold storeFd
  have key : ∀ r : Res Handle, Value.Set ⟨t, false⟩ r ≠ .stored h := by
    intro r
    cases r <;> simp [Value.Set]
  split_ifs <;> first | exact key _ | simp

/-- A Value whose type is a pointer to a pointer matches none of the cases of
`storeFd`. -/
theorem storeFd_pointer_to_pointer {σ : Type} (os : OS σ) (num : Int) (x : GoType) (b : Bool) :
    storeFd os num ⟨.ptr (.ptr x), b⟩ = .failed (.msg "Unknown target type") := by
  simp [storeFd]

/-- With at least one descriptor passed, a target that is a non-empty slice of
pointers makes `GetPassedFiles` fail on descriptor index 0 with
"Unknown target type", whatever the descriptor is. -/
theorem GetPassedFiles_slice_of_pointers {σ : Type} (os : OS σ) (s : σ) (x : GoType)
    (val : Option Handle) (elems : Option (List (Option Handle)))
    (hd : (listenFds os s).err = none) (hN : 1 ≤ (listenFds os s).num_fds)
    (hL : 1 ≤ sliceLen elems) :
    GetPassedFiles os s [⟨.slice (.ptr x), val, elems⟩] =
      .ret 0 (some (.msg "Unknown target type")) [⟨.slice (.ptr x), val, elems⟩] [0] := by
  unfold GetPassedFiles
  simp only [hd]
  obtain ⟨f, hf⟩ : ∃ f, (listenFds os s).num_fds.toNat = f + 1 :=
    ⟨(listenFds os s).num_fds.toNat - 1, by omega⟩
  obtain ⟨m, hm⟩ : ∃ m, sliceLen elems = m + 1 := ⟨sliceLen elems - 1, by omega⟩
  have hlt : (0 : Int) < (listenFds os s).num_fds := by omega
  rw [hf]
  unfold bindLoop
  simp [hlt, k, GoType.Kind, GoType.Elem, hm, fillSlice, storeFd_pointer_to_pointer]

/-- With at least one descriptor passed, a target that is a pointer to a nil
slice of pointers gets a fresh slice of nil elements, one per descriptor, and
`GetPassedFiles` fails on descriptor index 0 with "Unknown target type". -/
theorem GetPassedFiles_nil_slice_of_pointers {σ : Type} (os : OS σ) (s : σ) (x : GoType)
    (val : Option Handle)
    (hd : (listenFds os s).err = none) (hN : 1 ≤ (listenFds os s).num_fds) :
    GetPassedFiles os s [⟨.ptr (.slice (.ptr x)), val, none⟩] =
      .ret 0 (some (.msg "Unknown target type"))
        [⟨.ptr (.slice (.ptr x)), val,
          some (List.replicate (listenFds os s).num_fds.toNat none)⟩] [0] := by
  unfold GetPassedFiles
  simp only [hd]
  obtain ⟨f, hf⟩ : ∃ f, (listenFds os s).num_fds.toNat = f + 1 :=
    ⟨(listenFds os s).num_fds.toNat - 1, by omega⟩
  have hlt : (0 : Int) < (listenFds os s).num_fds := by omega
  rw [hf]
  unfold bindLoop
  simp [hlt, k, GoType.Kind, GoType.Elem, sliceLen, hf, fillSlice, storeFd_pointer_to_pointer,
    List.replicate]

/-! ## Claims -/

/-- C1 (failing input): with two listening sockets passed and the targets
`&ctl, &https` of the example program (`ctl` a `net.Listener`, `https` a nil
`[]net.Listener`), `GetPassedFiles` returns `(2, nil)` after storing descriptor
index 0 and then descriptor index 1 (OS descriptor 4) into `ctl`; the slice
stays nil. The target index `k` is never advanced. -/
theorem GetPassedFiles_single_then_nil_slice_at_two :
    (listenFds (listenersOS "2") noFlags).num_fds = 2 ∧
    (listenFds (listenersOS "2") noFlags).err = none ∧
    GetPassedFiles (listenersOS "2") noFlags
        [⟨.ptr .Listener, none, none⟩, ⟨.ptr (.slice .Listener), none, none⟩] =
      .ret 2 none
        [⟨.ptr .Listener, some ⟨.ptr .TCPListener, 4⟩, none⟩,
          ⟨.ptr (.slice .Listener), none, none⟩] [0, 1] := by
  decide

/-- C2 (counterexample): with `LISTEN_FDS=0` the discovered count is 0 without
error, and `GetPassedFiles` on the single target `&f` (`f` a `*os.File`) returns
`(0, nil)` with the target untouched; it does not return an error. -/
theorem GetPassedFiles_single_no_descriptor_counterexample :
    (listenFds (filesOS "0") noFlags).num_fds = 0 ∧
    (listenFds (filesOS "0") noFlags).err = none ∧
    GetPassedFiles (filesOS "0") noFlags [⟨.ptr (.ptr .File), none, none⟩] =
      .ret 0 none [⟨.ptr (.ptr .File), none, none⟩] [] ∧
    ¬ ∃ n e ts lg, GetPassedFiles (filesOS "0") noFlags [⟨.ptr (.ptr .File), none, none⟩] =
      .ret n (some e) ts lg := by
  refine ⟨by decide, by decide, by decide, ?_⟩
  rintro ⟨n, e, ts, lg, h⟩
  have h2 : GetPassedFiles (filesOS "0") noFlags [⟨.ptr (.ptr .File), none, none⟩] =
      .ret 0 none [⟨.ptr (.ptr .File), none, none⟩] [] := by decide
  rw [h2] at h
  simp at h

/-- C2 (amended): for `GetPassedFiles` called with exactly one single
(pointer-to-non-slice) target when discovery reports 0 descriptors without
error, the call returns `(0, nil)`, leaves the target as it was and hands no
descriptor to `storeFd`: more targets than descriptors is not an error. -/
theorem GetPassedFiles_single_no_descriptor {σ : Type} (os : OS σ) (s : σ) (t : Target)
    (_hshape : t.typ.Kind = .Ptr ∧ t.typ.Elem.Kind ≠ .Slice)
    (h0 : (listenFds os s).num_fds = 0 ∧ (listenFds os s).err = none) :
    GetPassedFiles os s [t] = .ret 0 none [t] [] := by
  unfold GetPassedFiles
  simp [h0.1, h0.2, bindLoop]

/-- C2 (witness): the amended statement at `LISTEN_FDS=0` and the target `&f`,
`f` a `*os.File`. -/
theorem GetPassedFiles_single_no_descriptor_witness :
    GetPassedFiles (filesOS "0") noFlags [⟨.ptr (.ptr .File), none, none⟩] =
      .ret 0 none [⟨.ptr (.ptr .File), none, none⟩] [] :=
  GetPassedFiles_single_no_descriptor (filesOS "0") noFlags ⟨.ptr (.ptr .File), none, none⟩
    (by decide) (by decide)

/-- C3 (failing input): with two regular files passed and one target that is a
`[]*os.File` of length 1, `GetPassedFiles` returns `(0, "Unknown target type")`
and the slot stays nil: `storeFd` is handed the address of the slot, a value of
type `**os.File`, which matches none of its cases. -/
theorem GetPassedFiles_short_slice_at_two :
    (listenFds (filesOS "2") noFlags).num_fds = 2 ∧
    (listenFds (filesOS "2") noFlags).err = none ∧
    GetPassedFiles (filesOS "2") noFlags [⟨.slice (.ptr .File), none, some [none]⟩] =
      .ret 0 (some (.msg "Unknown target type"))
        [⟨.slice (.ptr .File), none, some [none]⟩] [0] := by
  decide

/-- C4 (failing input): with one regular file passed and one target that is a
`[]*os.File` of length 1, `GetPassedFiles` returns `(0, "Unknown target type")`
and the slot stays nil, although `getFile` accepts the descriptor. -/
theorem GetPassedFiles_full_slice_at_one :
    (listenFds (filesOS "1") noFlags).num_fds = 1 ∧
    (listenFds (filesOS "1") noFlags).err = none ∧
    getFile (filesOS "1") 0 = .ok ⟨.ptr .File, 3⟩ ∧
    GetPassedFiles (filesOS "1") noFlags [⟨.slice (.ptr .File), none, some [none]⟩] =
      .ret 0 (some (.msg "Unknown target type"))
        [⟨.slice (.ptr .File), none, some [none]⟩] [0] := by
  decide

/-- C5 (failing input): with one regular file passed and one target that is a
pointer to a nil `[]*os.File`, `GetPassedFiles` allocates a slice of one nil
element and then returns `(0, "Unknown target type")` without filling it. -/
theorem GetPassedFiles_nil_slice_at_one :
    (listenFds (filesOS "1") noFlags).num_fds = 1 ∧
    (listenFds (filesOS "1") noFlags).err = none ∧
    GetPassedFiles (filesOS "1") noFlags [⟨.ptr (.slice (.ptr .File)), none, none⟩] =
      .ret 0 (some (.msg "Unknown target type"))
        [⟨.ptr (.slice (.ptr .File)), none, some [none]⟩] [0] := by
  decide

/-- C6 (failing input): when `Fstat` on OS descriptor 3 succeeds and reports a
socket (the mode masked with `S_IFMT` is `S_IFSOCK`), `getFile(0)` returns a
handle wrapping descriptor 3 instead of an error: the test `Mode & S_IFREG`
is non-zero for a socket. -/
theorem getFile_accepts_socket :
    (listenersOS "1").Fstat 3 = (S_IFSOCK ||| 0o777, none) ∧
    (S_IFSOCK ||| 0o777) &&& S_IFMT = S_IFSOCK ∧
    getFile (listenersOS "1") 0 = .ok ⟨.ptr .File, 3⟩ := by
  decide

/-- C7: whenever `LISTEN_PID` is empty, or parses as an integer different from
the current process id, `listenFds` returns `(0, nil)` whatever `LISTEN_FDS`
holds, issues no system call and leaves the kernel state as it was. -/
theorem listenFds_not_for_us {σ : Type} (os : OS σ) (s : σ)
    (h : os.Getenv "LISTEN_PID" = "" ∨
      ∃ l, Atoi (os.Getenv "LISTEN_PID") = some l ∧ l ≠ os.Getpid) :
    (listenFds os s).num_fds = 0 ∧ (listenFds os s).err = none ∧
      (listenFds os s).calls = [] ∧ (listenFds os s).st = s := by
  unfold listenFds
  rcases h with h | ⟨l, h1, h2⟩
  · simp [h]
  · by_cases hp : os.Getenv "LISTEN_PID" = ""
    · simp [hp]
    · simp [hp, h1, h2]

/-- C7 (witness): process 5678 with `LISTEN_PID=1234` and `LISTEN_FDS=5`. -/
theorem listenFds_not_for_us_witness :
    (listenFds strangerOS noFlags).num_fds = 0 ∧ (listenFds strangerOS noFlags).err = none ∧
      (listenFds strangerOS noFlags).calls = [] ∧ (listenFds strangerOS noFlags).st = noFlags :=
  listenFds_not_for_us strangerOS noFlags (Or.inr ⟨1234, by decide, by decide⟩)

/-- The error of `listenFds` read on its own trace: it returns a non-nil error
exactly when `LISTEN_PID` is non-empty and not a parseable integer, or
`LISTEN_PID` equals the current pid and `LISTEN_FDS` is non-empty and either
unparseable or negative, or, with a valid non-negative count, one of the system
calls it issued failed; whenever it returns an error the count is 0; and every
system call it issues is an `fcntl` flag query or flag set on a descriptor of
the range `3 .. 3+n-1`. Which calls are issued is the subject of
`listenFds_error_iff_kernel`. -/
theorem listenFds_error_iff {σ : Type} (os : OS σ) (s : σ) :
    ((listenFds os s).err ≠ none ↔
      (os.Getenv "LISTEN_PID" ≠ "" ∧ Atoi (os.Getenv "LISTEN_PID") = none) ∨
      (Atoi (os.Getenv "LISTEN_PID") = some os.Getpid ∧ os.Getenv "LISTEN_FDS" ≠ "" ∧
        (Atoi (os.Getenv "LISTEN_FDS") = none ∨
          ∃ n, Atoi (os.Getenv "LISTEN_FDS") = some n ∧ n < 0)) ∨
      (Atoi (os.Getenv "LISTEN_PID") = some os.Getpid ∧
        ∃ n, Atoi (os.Getenv "LISTEN_FDS") = some n ∧ 0 ≤ n ∧
          ∃ c ∈ (listenFds os s).calls, c.errno ≠ 0)) ∧
    ((listenFds os s).err ≠ none → (listenFds os s).num_fds = 0) ∧
    (∀ c ∈ (listenFds os s).calls,
      c.trap = SYS_FCNTL ∧ (c.a2 = F_GETFL ∨ c.a2 = F_SETFL) ∧
        ∃ n, Atoi (os.Getenv "LISTEN_FDS") = some n ∧
          3 ≤ (c.a1 : Int) ∧ (c.a1 : Int) < 3 + n) := by
  unfold listenFds
  simp only []
  by_cases hp : os.Getenv "LISTEN_PID" = ""
  · simp [hp, Atoi_empty]
  · cases hA : Atoi (os.Getenv "LISTEN_PID") with
    | none => simp [hp]
    | some l =>
      by_cases hl : l = os.Getpid
      · subst hl
        by_cases hf : os.Getenv "LISTEN_FDS" = ""
        · simp [hp, hf, Atoi_empty]
        · cases hB : Atoi (os.Getenv "LISTEN_FDS") with
          | none => simp [hp, hf]
          | some n =>
            by_cases hn : n < 0
            · simp [hp, hf, hn]
            · have hr := Atoi_range _ _ hB
              obtain ⟨a, b, _, d⟩ := listenFdsLoop_spec os n
                (wrapInt (listenFdsStart + n) - listenFdsStart).toNat listenFdsStart s
              simp only [hp, hf, hn, if_false, ne_eq, not_true_eq_false, not_false_eq_true,
                false_and, true_and, false_or, Option.some.injEq, reduceCtorEq, and_false,
                exists_eq_left', or_false, exists_false]
              refine ⟨?_, b, ?_⟩
              · have hn0 : 0 ≤ n := by omega
                simp only [ne_eq] at a
                rw [a]
                simp [hn0]
              · intro c hc
                obtain ⟨p, q, j, hj1, hj2, hj3⟩ := d c hc
                refine ⟨p, q, ?_⟩
                unfold listenFdsStart at hj1 hj2
                have hw : wrapInt (listenFdsStart + n) ≤ 3 + n ∧ wrapInt (listenFdsStart + n) < 2 ^ 63 := by
                  unfold wrapInt listenFdsStart
                  omega
                have hj4 : j < 3 + n ∧ j < 2 ^ 63 := by
                  unfold listenFdsStart at hw
                  omega
                have := uintptr_of_nonneg j (by omega) (by omega)
                rw [hj3, this]
                omega
      · simp [hp, hl]

/-- C9 (failing input): with `LISTEN_PID` the current pid and
`LISTEN_FDS=9223372036854775807`, which `Atoi` accepts, the loop bound
`listenFdsStart+l` wraps around to a negative number: `listenFds` returns
`(9223372036854775807, nil)` without issuing a single system call. -/
theorem listenFds_count_overflow :
    Atoi "9223372036854775807" = some (2 ^ 63 - 1) ∧
    wrapInt (listenFdsStart + (2 ^ 63 - 1)) = -2 ^ 63 + 2 ∧
    (listenFds (filesOS "9223372036854775807") noFlags).num_fds = 2 ^ 63 - 1 ∧
    (listenFds (filesOS "9223372036854775807") noFlags).err = none ∧
    (listenFds (filesOS "9223372036854775807") noFlags).calls = [] := by
  decide

/-- Below the overflow (`n + 3 < 2^63`) the discovery behaves as described: when
`LISTEN_PID` is the current pid, `LISTEN_FDS` parses to `n >= 0` and no issued
system call fails, `listenFds` returns `(n, nil)` and its system calls are
exactly those `visits` accepts for the descriptors `3 .. 3+n-1`. -/
theorem listenFds_visits {σ : Type} (os : OS σ) (s : σ) (n : Int)
    (hpid : Atoi (os.Getenv "LISTEN_PID") = some os.Getpid)
    (hfds : Atoi (os.Getenv "LISTEN_FDS") = some n)
    (hn : 0 ≤ n) (hbound : n + 3 < 2 ^ 63)
    (hok : ∀ c ∈ (listenFds os s).calls, c.errno = 0) :
    (listenFds os s).num_fds = n ∧ (listenFds os s).err = none ∧
      visits 3 n.toNat (listenFds os s).calls = true := by
  have hp : os.Getenv "LISTEN_PID" ≠ "" := by
    intro h; rw [h, Atoi_empty] at hpid; simp at hpid
  have hf : os.Getenv "LISTEN_FDS" ≠ "" := by
    intro h; rw [h, Atoi_empty] at hfds; simp at hfds
  have hcount : (wrapInt (listenFdsStart + n) - listenFdsStart).toNat = n.toNat := by
    unfold wrapInt listenFdsStart
    omega
  have hrun : listenFds os s = listenFdsLoop os n n.toNat listenFdsStart s := by
    unfold listenFds
    simp [hp, hf, hpid, hfds, not_lt.mpr hn, hcount]
  rw [hrun] at hok ⊢
  obtain ⟨a, _, c, _⟩ := listenFdsLoop_spec os n n.toNat listenFdsStart s
  have herr : (listenFdsLoop os n n.toNat listenFdsStart s).err = none := by
    by_contra hne
    obtain ⟨x, hx, hx2⟩ := a.mp hne
    exact hx2 (hok x hx)
  refine ⟨c herr, herr, ?_⟩
  have := listenFdsLoop_visits os n n.toNat listenFdsStart s (by decide)
    (by unfold listenFdsStart; omega) hok
  simpa [listenFdsStart] using this

/-- The bounded statement at `LISTEN_FDS=2` on a kernel with no flag set: two
queries, each followed by a set. -/
theorem listenFds_visits_witness :
    (listenFds (filesOS "2") noFlags).num_fds = 2 ∧ (listenFds (filesOS "2") noFlags).err = none ∧
      visits 3 (2 : Int).toNat (listenFds (filesOS "2") noFlags).calls = true :=
  listenFds_visits (filesOS "2") noFlags 2 (by decide) (by decide) (by decide) (by decide)
    (by decide)

/-- Below the overflow, on the flag-storing kernel, running discovery again on
the flags the first run left behind returns `(n, nil)` again and issues no
`F_SETFL` call: every call is a query. -/
theorem listenFds_rerun_quiet (os : OS (Nat → Nat)) (hk : os.Syscall = flagKernel)
    (s : Nat → Nat) (n : Int)
    (hpid : Atoi (os.Getenv "LISTEN_PID") = some os.Getpid)
    (hfds : Atoi (os.Getenv "LISTEN_FDS") = some n)
    (hn : 0 ≤ n) (hbound : n + 3 < 2 ^ 63) :
    (listenFds os (listenFds os s).st).num_fds = n ∧
      (listenFds os (listenFds os s).st).err = none ∧
      ∀ c ∈ (listenFds os (listenFds os s).st).calls, c.a2 = F_GETFL := by
  have hq : ∀ c ∈ (listenFds os (listenFds os s).st).calls, c.a2 = F_GETFL := by
    rw [listenFds_eq_loop os _ n hpid hfds hn hbound, listenFds_eq_loop os s n hpid hfds hn hbound]
    have hst := (listenFdsLoop_flagKernel_state os hk n n.toNat listenFdsStart s (by decide)
      (by unfold listenFdsStart; omega)).1
    exact listenFdsLoop_flagKernel_quiet os hk n n.toNat listenFdsStart _ (by decide)
      (by unfold listenFdsStart; omega) hst
  refine ⟨?_, ?_, hq⟩
  all_goals
    rw [listenFds_eq_loop os _ n hpid hfds hn hbound]
    obtain ⟨a, _, c, _⟩ := listenFdsLoop_spec os n n.toNat listenFdsStart (listenFds os s).st
    have herr : (listenFdsLoop os n n.toNat listenFdsStart (listenFds os s).st).err = none := by
      by_contra hne
      obtain ⟨x, hx, hx2⟩ := a.mp hne
      exact hx2 (listenFdsLoop_flagKernel_ok os hk n n.toNat _ _ x hx)
    first | exact c herr | exact herr

/-- The second run at `LISTEN_FDS=2` on the flag-storing kernel issues queries only. -/
theorem listenFds_rerun_quiet_witness :
    (listenFds (filesOS "2") (listenFds (filesOS "2") noFlags).st).num_fds = 2 ∧
      (listenFds (filesOS "2") (listenFds (filesOS "2") noFlags).st).err = none ∧
      ∀ c ∈ (listenFds (filesOS "2") (listenFds (filesOS "2") noFlags).st).calls,
        c.a2 = F_GETFL :=
  listenFds_rerun_quiet (filesOS "2") rfl noFlags 2 (by decide) (by decide) (by decide)
    (by decide)

/-- C10: `IsWatchdogActive` returns `(false, 0, nil)` when `WATCHDOG_PID` is empty
or parses to an integer different from the current pid; it returns
`(false, 0, err)` with a non-nil error when `WATCHDOG_PID` is non-empty and
unparseable, or equals the current pid while `WATCHDOG_USEC` is empty,
unparseable, zero or negative; and it returns `active = true` with a nil error
exactly when `WATCHDOG_PID` equals the current pid and `WATCHDOG_USEC` parses
to a strictly positive integer. -/
theorem IsWatchdogActive_cases {σ : Type} (os : OS σ) :
    ((os.Getenv "WATCHDOG_PID" = "" ∨
        ∃ l, Atoi (os.Getenv "WATCHDOG_PID") = some l ∧ l ≠ os.Getpid) →
      IsWatchdogActive os = (false, 0, none)) ∧
    (((os.Getenv "WATCHDOG_PID" ≠ "" ∧ Atoi (os.Getenv "WATCHDOG_PID") = none) ∨
        (Atoi (os.Getenv "WATCHDOG_PID") = some os.Getpid ∧
          (os.Getenv "WATCHDOG_USEC" = "" ∨ Atoi (os.Getenv "WATCHDOG_USEC") = none ∨
            ∃ u, Atoi (os.Getenv "WATCHDOG_USEC") = some u ∧ u ≤ 0))) →
      ∃ e, IsWatchdogActive os = (false, 0, some e)) ∧
    (((IsWatchdogActive os).1 = true ∧ (IsWatchdogActive os).2.2 = none) ↔
      (Atoi (os.Getenv "WATCHDOG_PID") = some os.Getpid ∧
        ∃ u, Atoi (os.Getenv "WATCHDOG_USEC") = some u ∧ 0 < u)) := by
  unfold IsWatchdogActive
  simp only []
  by_cases hp : os.Getenv "WATCHDOG_PID" = ""
  · simp [hp, Atoi_empty]
  · cases hA : Atoi (os.Getenv "WATCHDOG_PID") with
    | none => simp [hp]
    | some l =>
      by_cases hl : l = os.Getpid
      · subst hl
        by_cases hf : os.Getenv "WATCHDOG_USEC" = ""
        · simp [hp, hf, Atoi_empty]
        · cases hB : Atoi (os.Getenv "WATCHDOG_USEC") with
          | none => simp [hp, hf]
          | some u =>
            by_cases hu : u ≤ 0
            · simp [hp, hf, hu]
            · simp [hp, hf, hu]
              omega
      · simp [hp, hl]

/-! ## Further lemmas on discovery and distribution -/

/-- Whenever `listenFds` returns an error its count is 0. -/
theorem listenFds_err_count {σ : Type} (os : OS σ) (s : σ)
    (h : (listenFds os s).err ≠ none) : (listenFds os s).num_fds = 0 := by
  unfold listenFds at h ⊢
  simp only [] at h ⊢
  by_cases hp : os.Getenv "LISTEN_PID" = ""
  · simp [hp]
  · cases hA : Atoi (os.Getenv "LISTEN_PID") with
    | none => simp [hp]
    | some l =>
      by_cases hl : l = os.Getpid
      · by_cases hf : os.Getenv "LISTEN_FDS" = ""
        · simp [hp, hl, hf]
        · cases hB : Atoi (os.Getenv "LISTEN_FDS") with
          | none => simp [hp, hl, hf]
          | some n =>
            by_cases hn : n < 0
            · simp [hp, hl, hf, hn]
            · simp only [hp, hA, hl, hf, hB, hn, if_false, ne_eq, not_true_eq_false] at h ⊢
              exact (listenFdsLoop_spec os _ _ _ _).2.1 h
      · simp [hp, hl]

/-- The distribution loop returns the full count with a nil error and 0 with
any error. -/
theorem bindLoop_ret_count {σ : Type} (os : OS σ) (fds : Int) (fuel : Nat) :
    ∀ (i : Nat) (ts : List Target) (lg : List Nat) (n : Int) (e : Option Error)
      (ts1 : List Target) (lg1 : List Nat),
      bindLoop os fds fuel i ts lg = .ret n e ts1 lg1 →
        (e = none → n = fds) ∧ (e ≠ none → n = 0) := by
  induction fuel with
  | zero =>
    intro i ts lg n e ts1 lg1 h
    unfold bindLoop at h
    split_ifs at h
    simp only [Outcome.ret.injEq] at h
    obtain ⟨h1, h2, _, _⟩ := h
    subst h1 h2
    simp
  | succ fuel ih =>
    intro i ts lg n e ts1 lg1 h
    unfold bindLoop at h
    split_ifs at h with h1
    · split at h
      · simp at h
      · split_ifs at h
        · split at h
          · simp only [Outcome.ret.injEq] at h
            obtain ⟨h1, h2, _, _⟩ := h
            subst h1 h2
            simp
          · simp at h
          · exact ih _ _ _ _ _ _ _ h
        · split at h
          · simp only [Outcome.ret.injEq] at h
            obtain ⟨h1, h2, _, _⟩ := h
            subst h1 h2
            simp
          · simp at h
          · exact ih _ _ _ _ _ _ _ h
        · simp only [] at h
          split at h
          · simp only [Outcome.ret.injEq] at h
            obtain ⟨h1, h2, _, _⟩ := h
            subst h1 h2
            simp
          · simp at h
          · exact ih _ _ _ _ _ _ _ h
        · simp only [Outcome.ret.injEq] at h
          obtain ⟨h1, h2, _, _⟩ := h
          subst h1 h2
          simp
    · simp only [Outcome.ret.injEq] at h
      obtain ⟨h1, h2, _, _⟩ := h
      subst h1 h2
      simp

/-- Appending an index above all logged ones keeps the log strictly ascending. -/
theorem log_snoc (lg : List Nat) (i : Nat) (h1 : lg.Pairwise (· < ·)) (h2 : ∀ x ∈ lg, x < i) :
    (lg ++ [i]).Pairwise (· < ·) ∧ ∀ x ∈ lg ++ [i], x < i + 1 := by
  constructor
  · rw [List.pairwise_append]
    refine ⟨h1, List.pairwise_singleton _ _, ?_⟩
    intro a ha b hb
    simp only [List.mem_singleton] at hb
    subst hb
    exact h2 a ha
  · intro x hx
    simp only [List.mem_append, List.mem_singleton] at hx
    rcases hx with hx | hx
    · have := h2 x hx; omega
    · omega

/-- The inner loop keeps the log strictly ascending and below the global index. -/
theorem fillSlice_log {σ : Type} (os : OS σ) (fds : Int) (e : GoType) (n : Nat) :
    ∀ (i : Nat) (lg : List Nat), lg.Pairwise (· < ·) → (∀ x ∈ lg, x < i) →
      (∀ i1 lg1, fillSlice os fds e n i lg = .done i1 lg1 →
        lg1.Pairwise (· < ·) ∧ ∀ x ∈ lg1, x < i1) ∧
      (∀ err lg1, fillSlice os fds e n i lg = .failed err lg1 → lg1 = lg ++ [i]) ∧
      (∀ lg1, fillSlice os fds e n i lg = .panicked lg1 → lg1 = lg ++ [i]) := by
  induction n with
  | zero =>
    intro i lg h1 h2
    simp only [fillSlice, FillResult.done.injEq, reduceCtorEq, false_implies, implies_true,
      and_true]
    rintro i1 lg1 ⟨rfl, rfl⟩
    exact ⟨h1, h2⟩
  | succ n ih =>
    intro i lg h1 h2
    unfold fillSlice
    split_ifs with hi
    · split
      · simp
      · simp
      · rename_i h hs
        exact absurd hs (storeFd_unsettable os _ _ _)
    · simp only [FillResult.done.injEq, reduceCtorEq, false_implies, implies_true, and_true]
      rintro i1 lg1 ⟨rfl, rfl⟩
      exact ⟨h1, h2⟩

/-- The distribution loop hands descriptor indexes to `storeFd` in strictly
ascending order. -/
theorem bindLoop_log {σ : Type} (os : OS σ) (fds : Int) (fuel : Nat) :
    ∀ (i : Nat) (ts : List Target) (lg : List Nat),
      lg.Pairwise (· < ·) → (∀ x ∈ lg, x < i) →
        (bindLoop os fds fuel i ts lg).log.Pairwise (· < ·) := by
  induction fuel with
  | zero =>
    intro i ts lg h1 h2
    unfold bindLoop
    split_ifs <;> simp [Outcome.log, h1]
  | succ fuel ih =>
    intro i ts lg h1 h2
    have hs := log_snoc lg i h1 h2
    unfold bindLoop
    split_ifs with hi
    · split
      · simpa [Outcome.log] using h1
      · split_ifs
        · split
          · simpa [Outcome.log] using hs.1
          · simpa [Outcome.log] using hs.1
          · exact ih _ _ _ hs.1 hs.2
        · obtain ⟨a, b, c⟩ := fillSlice_log os fds _ _ i lg h1 h2
          split
          · rename_i hf
            rw [b _ _ hf]
            simpa [Outcome.log] using hs.1
          · rename_i hf
            rw [c _ hf]
            simpa [Outcome.log] using hs.1
          · rename_i hf
            obtain ⟨p, q⟩ := a _ _ hf
            exact ih _ _ _ p (fun x hx => by have := q x hx; omega)
        · simp only []
          obtain ⟨a, b, c⟩ := fillSlice_log os fds _ _ i lg h1 h2
          split
          · rename_i hf
            rw [b _ _ hf]
            simpa [Outcome.log] using hs.1
          · rename_i hf
            rw [c _ hf]
            simpa [Outcome.log] using hs.1
          · rename_i hf
            obtain ⟨p, q⟩ := a _ _ hf
            exact ih _ _ _ p (fun x hx => by have := q x hx; omega)
        · simpa [Outcome.log] using h1
    · simpa [Outcome.log] using h1

/-- `GetPassedFiles` hands descriptor indexes to `storeFd` in strictly ascending
order, each at most once. -/
theorem GetPassedFiles_log {σ : Type} (os : OS σ) (s : σ) (targets : List Target) :
    (GetPassedFiles os s targets).log.Pairwise (· < ·) := by
  unfold GetPassedFiles
  simp only []
  split
  · simp [Outcome.log]
  · exact bindLoop_log os _ _ 0 targets [] List.Pairwise.nil (by simp)

/-- A target whose slot 0 is a pointer to a non-slice of type `ty`: the
distribution loop on `fds` descriptors, entered at index `j` where `d` more
descriptors open and store without error and descriptor `j + d` fails, ends
with `(0, err)`, the memory the loop over only the first `j + d` descriptors
ends with, and a log that stops at the failing index. -/
theorem bindLoop_prefix {σ : Type} (os : OS σ) (fds : Int) (i : Nat) (ty : GoType) (err : Error)
    (hty : ty.Kind ≠ .Slice)
    (hi : (i : Int) < fds)
    (hfail : storeFd os i ⟨ty, true⟩ = .failed err) (d : Nat) :
    ∀ (j : Nat) (ts : List Target) (lg : List Nat) (t : Target) (f1 f2 : Nat),
      j + d = i → ts[k]? = some t → t.typ = .ptr ty →
      (∀ j1, j ≤ j1 → j1 < i → ∃ h, storeFd os j1 ⟨ty, true⟩ = .stored h) →
      d ≤ f1 → d + 1 ≤ f2 →
      ∃ ts1, bindLoop os i f1 j ts lg = .ret i none ts1 (lg ++ List.range' j d) ∧
        bindLoop os fds f2 j ts lg = .ret 0 (some err) ts1 (lg ++ List.range' j d ++ [i]) := by
  have hK : (GoType.ptr ty).Kind = Kind.Ptr := rfl
  have hE : (GoType.ptr ty).Elem = ty := rfl
  induction d with
  | zero =>
    intro j ts lg t f1 f2 hj ht htt _ _ hf2
    have hji : j = i := by omega
    subst hji
    refine ⟨ts, ?_, ?_⟩
    · cases f1 <;> simp [bindLoop]
    · obtain ⟨f, rfl⟩ : ∃ f, f2 = f + 1 := ⟨f2 - 1, by omega⟩
      unfold bindLoop
      simp [hi, ht, htt, hK, hE, hty, hfail]
  | succ d ih =>
    intro j ts lg t f1 f2 hj ht htt hok hf1 hf2
    obtain ⟨g1, rfl⟩ : ∃ f, f1 = f + 1 := ⟨f1 - 1, by omega⟩
    obtain ⟨g2, rfl⟩ : ∃ f, f2 = f + 1 := ⟨f2 - 1, by omega⟩
    obtain ⟨h, hh⟩ := hok j (le_refl _) (by omega)
    have hji : (j : Int) < (i : Int) := by omega
    have hjf : (j : Int) < fds := by omega
    have hk : k < ts.length := by
      obtain ⟨hlen, _⟩ := List.getElem?_eq_some.mp ht
      exact hlen
    obtain ⟨ts1, a, b⟩ := ih (j + 1) (ts.set k { t with val := some h }) (lg ++ [j])
      { t with val := some h } g1 g2 (by omega) (List.getElem?_set_self hk) htt
      (fun j1 h1 h2 => hok j1 (by omega) h2) (by omega) (by omega)
    refine ⟨ts1, ?_, ?_⟩
    · unfold bindLoop
      simp only [hji, if_true, ht, htt, hK, hE, hty, ne_eq,
        not_false_eq_true, and_self, hh]
      rw [htt] at a
      rw [a]
      simp [List.range'_succ]
    · unfold bindLoop
      simp only [hjf, if_true, ht, htt, hK, hE, hty, ne_eq,
        not_false_eq_true, and_self, hh]
      rw [htt] at b
      rw [b]
      simp [List.range'_succ]

/-! ## Claims C11 to C20 -/

/-- C11 (failing input): with `WATCHDOG_PID` the current pid and
`WATCHDOG_USEC=9223372036854775807`, which `Atoi` accepts as a positive integer,
`IsWatchdogActive` returns `active = true`, a nil error and the duration
`-1000` nanoseconds: `time.Duration(l) * time.Microsecond` wraps around. -/
theorem IsWatchdogActive_duration_overflow :
    Atoi "9223372036854775807" = some (2 ^ 63 - 1) ∧
    IsWatchdogActive (watchdogOS 77 "77" "9223372036854775807") = (true, -1000, none) := by
  decide

/-- Below the overflow (`u * 1000 < 2^63`) the duration is right: when
`WATCHDOG_PID` is the current pid and `WATCHDOG_USEC` parses to `u > 0`,
`IsWatchdogActive` returns `(true, u * 1000 ns, nil)`, a positive duration. -/
theorem IsWatchdogActive_duration {σ : Type} (os : OS σ) (u : Int)
    (hpid : Atoi (os.Getenv "WATCHDOG_PID") = some os.Getpid)
    (husec : Atoi (os.Getenv "WATCHDOG_USEC") = some u)
    (hu : 0 < u) (hbound : u * 1000 < 2 ^ 63) :
    IsWatchdogActive os = (true, u * 1000, none) ∧ 0 < u * 1000 := by
  have hp : os.Getenv "WATCHDOG_PID" ≠ "" := by
    intro h; rw [h, Atoi_empty] at hpid; simp at hpid
  have hf : os.Getenv "WATCHDOG_USEC" ≠ "" := by
    intro h; rw [h, Atoi_empty] at husec; simp at husec
  have hw : wrapInt (u * Microsecond) = u * 1000 := by
    unfold wrapInt Microsecond
    omega
  unfold IsWatchdogActive
  simp only [hp, hpid, hf, husec, not_le.mpr hu, hw, if_false, ne_eq, not_true_eq_false]
  exact ⟨trivial, by omega⟩

/-- The bounded statement at the value of the repository's test, `42235`. -/
theorem IsWatchdogActive_duration_witness :
    IsWatchdogActive (watchdogOS 77 "77" "42235") = (true, 42235 * 1000, none) ∧
      (0 : Int) < 42235 * 1000 :=
  IsWatchdogActive_duration (watchdogOS 77 "77" "42235") 42235 (by decide) (by decide)
    (by decide) (by decide)

/-- C12: `AutoWatchdog` starts the background pinger only if the watchdog is
active and the immediate first ping succeeded. When `IsWatchdogActive` reports
inactive or an error, it returns that active flag and error with interval 0,
starts no pinger and leaves the notification client untouched (no ping). When
the watchdog is active and the first `NotifyWatchdog` fails with `e`, it
returns `(false, 0, e)` and starts no pinger. -/
theorem AutoWatchdog_starts_pinger_only_after_ping {σ τ : Type} (os : OS σ) (nt : Net τ)
    (st : NotifyState τ) :
    (((IsWatchdogActive os).1 = false ∨ (IsWatchdogActive os).2.2 ≠ none) →
      (AutoWatchdog os nt st).active = (IsWatchdogActive os).1 ∧
      (AutoWatchdog os nt st).err = (IsWatchdogActive os).2.2 ∧
      (AutoWatchdog os nt st).interval = 0 ∧
      (AutoWatchdog os nt st).pinger = none ∧
      (AutoWatchdog os nt st).st = st) ∧
    (((IsWatchdogActive os).1 = true ∧ (IsWatchdogActive os).2.2 = none) →
      ∀ e, (NotifyWatchdog os nt st).1 = some e →
        (AutoWatchdog os nt st).active = false ∧
        (AutoWatchdog os nt st).interval = 0 ∧
        (AutoWatchdog os nt st).err = some e ∧
        (AutoWatchdog os nt st).pinger = none) ∧
    ((AutoWatchdog os nt st).pinger ≠ none →
      (IsWatchdogActive os).1 = true ∧ (IsWatchdogActive os).2.2 = none ∧
      (NotifyWatchdog os nt st).1 = none) := by
  unfold AutoWatchdog
  simp only []
  by_cases h : (IsWatchdogActive os).1 = false ∨ (IsWatchdogActive os).2.2 ≠ none
  · simp only [h, if_true, true_implies, and_self, true_and, ne_eq, not_true_eq_false,
      false_implies, and_true]
    rintro ⟨h1, h2⟩
    rcases h with h | h
    · rw [h1] at h; simp at h
    · exact absurd h2 h
  · simp only [h, if_false, false_implies, true_and]
    have h1 : (IsWatchdogActive os).1 = true ∧ (IsWatchdogActive os).2.2 = none := by
      constructor
      · by_contra hc; exact h (Or.inl (by simpa using hc))
      · by_contra hc; exact h (Or.inr hc)
    cases hp : (NotifyWatchdog os nt st).1 with
    | none => simp [h1]
    | some e => simp

/-- The test of `NotifyStatus` fires on every text that holds a line feed or a
carriage return. -/
theorem containsNewline_of_mem (status : String)
    (h : '\n' ∈ status.toList ∨ '\r' ∈ status.toList) : containsNewline status = true := by
  unfold containsNewline
  rw [List.any_eq_true]
  rcases h with h | h
  · exact ⟨_, h, by simp⟩
  · exact ⟨_, h, by simp⟩

/-- C13: for every status text that contains a line feed or a carriage return,
`NotifyStatus` returns a non-nil error and leaves the notification client
exactly as it was: no read of `NOTIFY_SOCKET`, no dial, no write, the cached
connection unchanged. -/
theorem NotifyStatus_rejects_newline {σ τ : Type} (os : OS σ) (nt : Net τ)
    (st : NotifyState τ) (status : String)
    (h : '\n' ∈ status.toList ∨ '\r' ∈ status.toList) :
    ∃ e, NotifyStatus os nt st status = (some e, st) := by
  unfold NotifyStatus
  rw [containsNewline_of_mem status h]
  exact ⟨_, rfl⟩

/-- C13 (witness): the status `"up\nand running"` on a fresh client. -/
theorem NotifyStatus_rejects_newline_witness :
    ∃ e, NotifyStatus (procOS 77 (serviceEnv "42235")) okNet freshNotify "up\nand running" =
      (some e, freshNotify) :=
  NotifyStatus_rejects_newline (procOS 77 (serviceEnv "42235")) okNet freshNotify
    "up\nand running" (Or.inl (by decide))

/-- C14: the cached connection of the notification client. `Notify` dials only
when no connection is cached. If the dial fails it returns the error, writes
nothing and the cache stays empty. On the connection `c` it uses (the cached
one, or the one just dialled) it writes the message once; if the write fails
the error is returned, `c` is closed and the cache becomes empty; if the write
succeeds the cache holds `c`. Hence the cache is empty after every `Notify`
that returns an error and non-empty after every `Notify` that returns nil. -/
theorem Notify_cache {σ τ : Type} (os : OS σ) (nt : Net τ) (st : NotifyState τ)
    (state : String) :
    (st.notifyConn ≠ none →
      dials (Notify os nt st state).2.events = dials st.events) ∧
    (st.notifyConn = none → ∀ e, (NotifyConn os nt st).1 = .err e →
      (Notify os nt st state).1 = some e ∧
      written (Notify os nt st state).2.events = written st.events ∧
      (Notify os nt st state).2.notifyConn = none) ∧
    (∀ (c : Nat) (st0 : NotifyState τ),
      ((st.notifyConn = some c ∧ st0 = st) ∨
        (st.notifyConn = none ∧ NotifyConn os nt st = (.ok c, st0))) →
      (∀ e, (nt.Write st0.sock c state).1 = some e →
        (Notify os nt st state).1 = some e ∧
        (Notify os nt st state).2.notifyConn = none ∧
        (Notify os nt st state).2.events = st0.events ++ [.write c state, .close c]) ∧
      ((nt.Write st0.sock c state).1 = none →
        (Notify os nt st state).1 = none ∧
        (Notify os nt st state).2.notifyConn = some c ∧
        (Notify os nt st state).2.events = st0.events ++ [.write c state])) ∧
    ((Notify os nt st state).1 ≠ none → (Notify os nt st state).2.notifyConn = none) ∧
    ((Notify os nt st state).1 = none → (Notify os nt st state).2.notifyConn ≠ none) := by
  have hw : ∀ (st0 : NotifyState τ) (c : Nat),
      (∀ e, (nt.Write st0.sock c state).1 = some e →
        (notifyWrite nt st0 c state).1 = some e ∧
        (notifyWrite nt st0 c state).2.notifyConn = none ∧
        (notifyWrite nt st0 c state).2.events = st0.events ++ [.write c state, .close c]) ∧
      ((nt.Write st0.sock c state).1 = none →
        (notifyWrite nt st0 c state).1 = none ∧
        (notifyWrite nt st0 c state).2.notifyConn = st0.notifyConn ∧
        (notifyWrite nt st0 c state).2.events = st0.events ++ [.write c state]) := by
    intro st0 c
    unfold notifyWrite
    constructor
    · intro e he
      simp [he, NotifyState.log]
    · intro he
      simp [he, NotifyState.log]
  cases hc : st.notifyConn with
  | some c =>
    obtain ⟨a, b⟩ := hw st c
    have hN : Notify os nt st state = notifyWrite nt st c state := by
      unfold Notify; simp [hc]
    rw [hN]
    refine ⟨?_, by simp, ?_, ?_, ?_⟩
    · intro _
      cases hr : (nt.Write st.sock c state).1 with
      | none => rw [(b hr).2.2]; simp [dials]
      | some e => rw [(a e hr).2.2]; simp [dials]
    · rintro c1 st0 (⟨h1, h2⟩ | ⟨h1, _⟩)
      · simp only [Option.some.injEq] at h1
        subst h1 h2
        refine ⟨a, fun h => ?_⟩
        obtain ⟨p, q, r⟩ := b h
        exact ⟨p, by rw [q, hc], r⟩
      · simp at h1
    · intro h
      cases hr : (nt.Write st.sock c state).1 with
      | none => rw [(b hr).1] at h; simp at h
      | some e => exact (a e hr).2.1
    · intro h
      cases hr : (nt.Write st.sock c state).1 with
      | none => rw [(b hr).2.1, hc]; simp
      | some e => rw [(a e hr).1] at h; simp at h
  | none =>
    cases hd : NotifyConn os nt st with
    | mk r st1 =>
      cases r with
      | err e =>
        have hN : Notify os nt st state = (some e, { st1 with notifyConn := none }) := by
          unfold Notify; simp [hc, hd]
        have hev : written st1.events = written st.events := by
          have : st1 = (NotifyConn os nt st).2 := by rw [hd]
          rw [this]
          unfold NotifyConn
          simp only []
          split_ifs
          · simp [NotifyState.log, written]
          · simp [NotifyState.log, written]
          · split
            · simp [NotifyState.log, written]
            · split <;> simp [NotifyState.log, written]
        rw [hN]
        refine ⟨by simp, ?_, ?_, by simp, by simp⟩
        · intro _ e1 he1
          simp only [Res.err.injEq] at he1
          subst he1
          exact ⟨rfl, hev, rfl⟩
        · rintro c1 st0 (⟨h1, _⟩ | ⟨_, h2⟩)
          · simp at h1
          · simp at h2
      | ok c =>
        obtain ⟨a, b⟩ := hw { st1 with notifyConn := some c } c
        have hN : Notify os nt st state =
            notifyWrite nt { st1 with notifyConn := some c } c state := by
          unfold Notify; simp [hc, hd]
        rw [hN]
        refine ⟨by simp, by simp, ?_, ?_, ?_⟩
        · rintro c1 st0 (⟨h1, _⟩ | ⟨_, h2⟩)
          · simp at h1
          · simp only [Prod.mk.injEq, Res.ok.injEq] at h2
            obtain ⟨h3, h4⟩ := h2
            subst h3 h4
            exact ⟨a, b⟩
        · intro h
          cases hr : (nt.Write st1.sock c state).1 with
          | none => rw [(b hr).1] at h; simp at h
          | some e => exact (a e hr).2.1
        · intro h
          cases hr : (nt.Write st1.sock c state).1 with
          | none => rw [(b hr).2.1]; simp
          | some e => rw [(a e hr).1] at h; simp at h

/-- C15 (failing input): with two regular files passed and the single target
`&f` (`f` a `*os.File`), one slot for two descriptors, `GetPassedFiles` returns
`(2, nil)`: both descriptors are stored into `f` in turn and no error is
reported. -/
theorem GetPassedFiles_too_few_targets_at_two :
    (listenFds (filesOS "2") noFlags).num_fds = 2 ∧
    (listenFds (filesOS "2") noFlags).err = none ∧
    GetPassedFiles (filesOS "2") noFlags [⟨.ptr (.ptr .File), none, none⟩] =
      .ret 2 none [⟨.ptr (.ptr .File), some ⟨.ptr .File, 4⟩, none⟩] [0, 1] := by
  decide

/-- The type assertions behind `storeFd`: for a target of type
`*net.TCPListener`, `*net.UnixListener`, `*net.IPConn`, `*net.TCPConn`,
`*net.UDPConn` or `*net.UnixConn`, if `net` fails on the descriptor or reports
another dynamic type, `storeFd` returns a non-nil error; and whenever `storeFd`
sets the target, the handle is the one `net` built from that descriptor and
`net` reported exactly the requested type. Whether the descriptor is of the
requested kind is left to `net`. -/
theorem storeFd_never_coerces {σ : Type} (os : OS σ) (num : Int) (b : Bool) (x : GoType)
    (hx : x ∈ [GoType.TCPListener, GoType.UnixListener, GoType.IPConn, GoType.TCPConn,
      GoType.UDPConn, GoType.UnixConn]) :
    (openedType os x num ≠ some (.ptr x) → ∃ e, storeFd os num ⟨.ptr x, b⟩ = .failed e) ∧
    (∀ h, storeFd os num ⟨.ptr x, b⟩ = .stored h →
      h = ⟨.ptr x, uintptr (wrapInt (listenFdsStart + num))⟩ ∧
      openedType os x num = some (.ptr x) ∧ b = true) := by
  simp only [List.mem_cons, List.mem_singleton, List.not_mem_nil, or_false] at hx
  rcases hx with rfl | rfl | rfl | rfl | rfl | rfl
  · cases hl : os.FileListener (uintptr (wrapInt (listenFdsStart + num))) with
    | none => simp [openedType, storeFd, getTCPListener, getListener, assertType, Value.Set, hl]
    | some y =>
      by_cases hy : y = .ptr .TCPListener
      · cases b <;>
          simp [openedType, storeFd, getTCPListener, getListener, assertType, Value.Set, hl, hy]
      · simp [openedType, storeFd, getTCPListener, getListener, assertType, Value.Set, hl, hy]
  · cases hl : os.FileListener (uintptr (wrapInt (listenFdsStart + num))) with
    | none => simp [openedType, storeFd, getUnixListener, getListener, assertType, Value.Set, hl]
    | some y =>
      by_cases hy : y = .ptr .UnixListener
      · cases b <;>
          simp [openedType, storeFd, getUnixListener, getListener, assertType, Value.Set, hl, hy]
      · simp [openedType, storeFd, getUnixListener, getListener, assertType, Value.Set, hl, hy]
  · cases hl : os.FileConn (uintptr (wrapInt (listenFdsStart + num))) with
    | none => simp [openedType, storeFd, getIPConn, getConn, assertType, Value.Set, hl]
    | some y =>
      by_cases hy : y = .ptr .IPConn
      · cases b <;>
          simp [openedType, storeFd, getIPConn, getConn, assertType, Value.Set, hl, hy]
      · simp [openedType, storeFd, getIPConn, getConn, assertType, Value.Set, hl, hy]
  · cases hl : os.FileConn (uintptr (wrapInt (listenFdsStart + num))) with
    | none => simp [openedType, storeFd, getTCPConn, getConn, assertType, Value.Set, hl]
    | some y =>
      by_cases hy : y = .ptr .TCPConn
      · cases b <;>
          simp [openedType, storeFd, getTCPConn, getConn, assertType, Value.Set, hl, hy]
      · simp [openedType, storeFd, getTCPConn, getConn, assertType, Value.Set, hl, hy]
  · cases hl : os.FileConn (uintptr (wrapInt (listenFdsStart + num))) with
    | none => simp [openedType, storeFd, getUDPConn, getConn, assertType, Value.Set, hl]
    | some y =>
      by_cases hy : y = .ptr .UDPConn
      · cases b <;>
          simp [openedType, storeFd, getUDPConn, getConn, assertType, Value.Set, hl, hy]
      · simp [openedType, storeFd, getUDPConn, getConn, assertType, Value.Set, hl, hy]
  · cases hl : os.FileConn (uintptr (wrapInt (listenFdsStart + num))) with
    | none => simp [openedType, storeFd, getUnixConn, getConn, assertType, Value.Set, hl]
    | some y =>
      by_cases hy : y = .ptr .UnixConn
      · cases b <;>
          simp [openedType, storeFd, getUnixConn, getConn, assertType, Value.Set, hl, hy]
      · simp [openedType, storeFd, getUnixConn, getConn, assertType, Value.Set, hl, hy]

/-- The type assertion at work: a `*net.UnixListener` is requested for
descriptor index 0, a TCP socket, for which `net.FileListener` builds a
`*net.TCPListener`; `storeFd` returns an error. -/
theorem storeFd_never_coerces_witness :
    (∃ e, storeFd (connectedOS "1") 0 ⟨.ptr .UnixListener, true⟩ = .failed e) ∧
    (∀ h, storeFd (connectedOS "1") 0 ⟨.ptr .UnixListener, true⟩ = .stored h →
      h = ⟨.ptr .UnixListener, uintptr (wrapInt (listenFdsStart + 0))⟩ ∧
      openedType (connectedOS "1") .UnixListener 0 = some (.ptr .UnixListener) ∧ true = true) :=
  ⟨(storeFd_never_coerces (connectedOS "1") 0 true .UnixListener (by decide)).1 (by decide),
    (storeFd_never_coerces (connectedOS "1") 0 true .UnixListener (by decide)).2⟩

/-- C18: `GetPassedFiles` is fail-fast without rollback. (1) For a call whose
first target is a single target: if the descriptors of index below `i` open
and descriptor `i` fails with `err`, the call returns `(0, err)`, has handed
exactly the indexes `0 .. i` to `storeFd`, and leaves the memory that the loop
over only the first `i` descriptors leaves. (2) In every state of the loop, for
each of the three target shapes, a failing `storeFd` at the current index ends
the call with `(0, err)`, the memory as it is at that moment and the current
index last in the log. (3) In every call the indexes handed to `storeFd` are
strictly ascending, so none above the failing one is ever resolved. -/
theorem GetPassedFiles_fail_fast {σ : Type} (os : OS σ) :
    (∀ (s : σ) (t : Target) (rest : List Target) (ty : GoType) (i : Nat) (err : Error),
      (listenFds os s).err = none → t.typ = .ptr ty → ty.Kind ≠ .Slice →
      (i : Int) < (listenFds os s).num_fds →
      (∀ j, j < i → ∃ h, storeFd os j ⟨ty, true⟩ = .stored h) →
      storeFd os i ⟨ty, true⟩ = .failed err →
      ∃ ts1, bindLoop os i i 0 (t :: rest) [] = .ret i none ts1 (List.range i) ∧
        GetPassedFiles os s (t :: rest) = .ret 0 (some err) ts1 (List.range (i + 1))) ∧
    (∀ (fds : Int) (fuel i : Nat) (ts : List Target) (lg : List Nat) (t : Target) (err : Error),
      (i : Int) < fds → ts[k]? = some t →
      (t.typ.Kind = .Ptr ∧ t.typ.Elem.Kind ≠ .Slice →
        storeFd os i ⟨t.typ.Elem, true⟩ = .failed err →
        bindLoop os fds (fuel + 1) i ts lg = .ret 0 (some err) ts (lg ++ [i])) ∧
      (t.typ.Kind = .Slice → 0 < sliceLen t.elems →
        storeFd os i ⟨.ptr t.typ.Elem, false⟩ = .failed err →
        bindLoop os fds (fuel + 1) i ts lg = .ret 0 (some err) ts (lg ++ [i])) ∧
      (t.typ.Kind = .Ptr ∧ t.typ.Elem.Kind = .Slice →
        0 < sliceLen (allocSlice fds i t.elems) →
        storeFd os i ⟨.ptr t.typ.Elem.Elem, false⟩ = .failed err →
        bindLoop os fds (fuel + 1) i ts lg =
          .ret 0 (some err) (ts.set k { t with elems := allocSlice fds i t.elems })
            (lg ++ [i]))) ∧
    (∀ (s : σ) (targets : List Target),
      (GetPassedFiles os s targets).log.Pairwise (· < ·)) := by
  refine ⟨?_, ?_, fun s targets => GetPassedFiles_log os s targets⟩
  · intro s t rest ty i err hd htt hty hi hok hfail
    obtain ⟨ts1, a, b⟩ := bindLoop_prefix os (listenFds os s).num_fds i ty err hty hi hfail i
      0 (t :: rest) [] t i (listenFds os s).num_fds.toNat (by omega) (by simp [k]) htt
      (fun j1 _ h2 => hok j1 h2) (le_refl _) (by omega)
    refine ⟨ts1, ?_, ?_⟩
    · rw [a]; simp [List.range_eq_range']
    · unfold GetPassedFiles
      simp only [hd]
      rw [b]
      simp [List.range_succ, List.range_eq_range']
  · intro fds fuel i ts lg t err hi ht
    refine ⟨?_, ?_, ?_⟩
    · intro hsh hfail
      unfold bindLoop
      simp [hi, ht, hsh.1, hsh.2, hfail]
    · intro hsh hlen hfail
      obtain ⟨m, hm⟩ : ∃ m, sliceLen t.elems = m + 1 := ⟨sliceLen t.elems - 1, by omega⟩
      unfold bindLoop
      simp [hi, ht, hsh, hm, fillSlice, hfail]
    · intro hsh hlen hfail
      obtain ⟨m, hm⟩ : ∃ m, sliceLen (allocSlice fds i t.elems) = m + 1 :=
        ⟨sliceLen (allocSlice fds i t.elems) - 1, by omega⟩
      have hns : t.typ.Kind ≠ .Slice := by rw [hsh.1]; decide
      unfold bindLoop
      unfold allocSlice at hm ⊢
      simp only [hi, if_true, ht, hsh.1, hsh.2, ne_eq, not_true_eq_false, and_false, if_false,
        reduceCtorEq, and_self, hm, fillSlice, hfail]

/-- A run that stops at a failing descriptor: three descriptors passed, `Fstat` fails on the
second, one `*os.File` target. The call returns `(0, EBADF)`, the handle of
descriptor index 0 stays in the target and index 2 is never handed to
`storeFd`. -/
theorem GetPassedFiles_stops_at_second :
    GetPassedFiles secondBrokenOS noFlags [⟨.ptr (.ptr .File), none, none⟩] =
      .ret 0 (some (.errno 9)) [⟨.ptr (.ptr .File), some ⟨.ptr .File, 3⟩, none⟩] [0, 1] := by
  decide

/-- C19: whenever `GetPassedFiles` returns without error, the returned count is
the count `listenFds` returned; whenever it returns an error, from discovery or
from binding, the returned count is 0. -/
theorem GetPassedFiles_count {σ : Type} (os : OS σ) (s : σ) (targets : List Target)
    (n : Int) (e : Option Error) (ts : List Target) (lg : List Nat)
    (h : GetPassedFiles os s targets = .ret n e ts lg) :
    (e = none → n = (listenFds os s).num_fds) ∧ (e ≠ none → n = 0) := by
  unfold GetPassedFiles at h
  simp only [] at h
  split at h
  · rename_i e1 he1
    simp only [Outcome.ret.injEq] at h
    obtain ⟨h1, h2, _, _⟩ := h
    subst h1 h2
    refine ⟨by simp, fun _ => listenFds_err_count os s (by rw [he1]; simp)⟩
  · exact bindLoop_ret_count os _ _ _ _ _ _ _ _ _ h

/-- C19 (witness): one listening socket passed, one `net.Listener` target: the
call returns `(1, nil)`. -/
theorem GetPassedFiles_count_witness :
    ((none : Option Error) = none → (1 : Int) = (listenFds (listenersOS "1") noFlags).num_fds) ∧
      ((none : Option Error) ≠ none → (1 : Int) = 0) :=
  GetPassedFiles_count (listenersOS "1") noFlags [⟨.ptr .Listener, none, none⟩] 1 none
    [⟨.ptr .Listener, some ⟨.ptr .TCPListener, 3⟩, none⟩] [0] (by decide)

/-- C20 (failing input): with `WATCHDOG_PID` the current pid,
`WATCHDOG_USEC=9223372036854776` and a notification socket that accepts the
ping, `IsWatchdogActive` reports the wrapped duration `-9223372036854775616` ns
and `AutoWatchdog` returns `(true, -4611686018427387808 ns, nil)` and starts the
pinger with that negative interval, not with `u * 500 = 4611686018427388000` ns. -/
theorem AutoWatchdog_interval_overflow :
    Atoi "9223372036854776" = some 9223372036854776 ∧
    IsWatchdogActive (procOS 77 (serviceEnv "9223372036854776")) =
      (true, -9223372036854775616, none) ∧
    (NotifyWatchdog (procOS 77 (serviceEnv "9223372036854776")) okNet freshNotify).1 = none ∧
    (AutoWatchdog (procOS 77 (serviceEnv "9223372036854776")) okNet freshNotify).active = true ∧
    (AutoWatchdog (procOS 77 (serviceEnv "9223372036854776")) okNet freshNotify).interval =
      -4611686018427387808 ∧
    (AutoWatchdog (procOS 77 (serviceEnv "9223372036854776")) okNet freshNotify).err = none ∧
    (AutoWatchdog (procOS 77 (serviceEnv "9223372036854776")) okNet freshNotify).pinger =
      some (-4611686018427387808) ∧
    (9223372036854776 : Int) * 500 = 4611686018427388000 := by
  decide

/-- Apart from the overflow the halving is right: when `IsWatchdogActive` reports
`(true, d, nil)` and the immediate ping succeeds, `AutoWatchdog` returns
`(true, d/2, nil)`, starts the pinger with the same `d/2`, and has written
exactly one datagram, `WATCHDOG=1`; and when `d = u * 1000` the halved interval
is `u * 500` nanoseconds. -/
theorem AutoWatchdog_halves {σ τ : Type} (os : OS σ) (nt : Net τ) (st : NotifyState τ)
    (d : Int) (hact : IsWatchdogActive os = (true, d, none))
    (hping : (NotifyWatchdog os nt st).1 = none) :
    (AutoWatchdog os nt st).active = true ∧
    (AutoWatchdog os nt st).interval = Int.tdiv d 2 ∧
    (AutoWatchdog os nt st).err = none ∧
    (AutoWatchdog os nt st).pinger = some (Int.tdiv d 2) ∧
    (AutoWatchdog os nt st).st = (NotifyWatchdog os nt st).2 ∧
    written (AutoWatchdog os nt st).st.events = written st.events ++ ["WATCHDOG=1"] ∧
    (∀ u : Int, d = u * 1000 → Int.tdiv d 2 = u * 500) := by
  have hrun : AutoWatchdog os nt st =
      ⟨true, Int.tdiv d 2, none, some (Int.tdiv d 2), (NotifyWatchdog os nt st).2⟩ := by
    unfold AutoWatchdog
    simp [hact, hping]
  rw [hrun]
  refine ⟨rfl, rfl, rfl, rfl, rfl, ?_, ?_⟩
  · simp only []
    unfold NotifyWatchdog at hping ⊢
    unfold Notify at hping ⊢
    cases hc : st.notifyConn with
    | some c =>
      simp only [hc] at hping ⊢
      unfold notifyWrite at hping ⊢
      simp only [] at hping ⊢
      split at hping
      · simp at hping
      · rename_i hr
        simp [hr, NotifyState.log, written]
    | none =>
      simp only [hc] at hping ⊢
      cases hd : NotifyConn os nt st with
      | mk r st1 =>
        have hev : written st1.events = written st.events := by
          have : st1 = (NotifyConn os nt st).2 := by rw [hd]
          rw [this]
          unfold NotifyConn
          simp only []
          split_ifs
          · simp [NotifyState.log, written]
          · simp [NotifyState.log, written]
          · split
            · simp [NotifyState.log, written]
            · split <;> simp [NotifyState.log, written]
        cases r with
        | err e => simp [hd] at hping
        | ok c =>
          simp only [hd] at hping ⊢
          unfold notifyWrite at hping ⊢
          simp only [] at hping ⊢
          split at hping
          · simp at hping
          · rename_i hr
            simp [hr, NotifyState.log, written]
            simpa [written] using hev
  · intro u hu
    subst hu
    rw [show u * 1000 = (u * 500) * 2 by ring]
    exact Int.mul_tdiv_cancel _ (by decide)

/-- The halving at the value of the repository's test, `42235` microseconds. -/
theorem AutoWatchdog_halves_witness :
    (AutoWatchdog (procOS 77 (serviceEnv "42235")) okNet freshNotify).active = true ∧
    (AutoWatchdog (procOS 77 (serviceEnv "42235")) okNet freshNotify).interval =
      Int.tdiv 42235000 2 ∧
    (AutoWatchdog (procOS 77 (serviceEnv "42235")) okNet freshNotify).err = none ∧
    (AutoWatchdog (procOS 77 (serviceEnv "42235")) okNet freshNotify).pinger =
      some (Int.tdiv 42235000 2) ∧
    (AutoWatchdog (procOS 77 (serviceEnv "42235")) okNet freshNotify).st =
      (NotifyWatchdog (procOS 77 (serviceEnv "42235")) okNet freshNotify).2 ∧
    written (AutoWatchdog (procOS 77 (serviceEnv "42235")) okNet freshNotify).st.events =
      written freshNotify.events ++ ["WATCHDOG=1"] ∧
    (∀ u : Int, (42235000 : Int) = u * 1000 → Int.tdiv 42235000 2 = u * 500) :=
  AutoWatchdog_halves (procOS 77 (serviceEnv "42235")) okNet freshNotify 42235000
    (by decide) (by decide)

/-! ## Lemmas on decimal texts -/

/-- The digit character of a number below ten has that number as its value. -/
theorem digitVal_digitChar (m : Nat) (h : m < 10) : digitVal (Nat.digitChar m) = some m := by
  interval_cases m <;> decide

/-- Reading digits continues after a digit prefix. -/
theorem parseDigits_append_singleton (l : List Char) (d : Char) (rest : List Char) (acc : Nat) :
    parseDigits (l ++ [d] ++ rest) acc = parseDigits (l ++ (d :: rest)) acc := by
  simp

/-- The digits the library produces for `n`: a non-empty run of decimal digits
put in front of `ds`, whose value read from the left is `n`, without a leading
zero unless it is the single digit. -/
theorem toDigitsCore_spec (fuel : Nat) :
    ∀ (n : Nat) (ds : List Char), n < fuel →
      ∃ l, Nat.toDigitsCore 10 fuel n ds = l ++ ds ∧ l ≠ [] ∧
        (∀ c ∈ l, ∃ m, digitVal c = some m) ∧
        (∀ rest acc, parseDigits (l ++ rest) acc = parseDigits rest (acc * 10 ^ l.length + n)) ∧
        (l.length = 1 ∨ 10 ^ (l.length - 1) ≤ n) := by
  induction fuel with
  | zero => intro n ds h; omega
  | succ fuel ih =>
    intro n ds h
    have hd : digitVal (Nat.digitChar (n % 10)) = some (n % 10) :=
      digitVal_digitChar _ (Nat.mod_lt _ (by decide))
    unfold Nat.toDigitsCore
    simp only []
    split_ifs with h0
    · refine ⟨[Nat.digitChar (n % 10)], rfl, by simp, ?_, ?_, Or.inl rfl⟩
      · intro c hc
        simp only [List.mem_singleton] at hc
        subst hc
        exact ⟨_, hd⟩
      · intro rest acc
        have hn : n % 10 = n := Nat.mod_eq_of_lt (by omega)
        simp only [List.singleton_append, List.length_singleton, parseDigits, hd, pow_one]
        rw [hn]
        rfl
    · obtain ⟨l, h1, h2, h3, h4, h5⟩ := ih (n / 10) (Nat.digitChar (n % 10) :: ds) (by omega)
      refine ⟨l ++ [Nat.digitChar (n % 10)], by rw [h1]; simp, by simp, ?_, ?_, ?_⟩
      · intro c hc
        simp only [List.mem_append, List.mem_singleton] at hc
        rcases hc with hc | hc
        · exact h3 c hc
        · subst hc; exact ⟨_, hd⟩
      · intro rest acc
        rw [parseDigits_append_singleton, h4]
        simp only [parseDigits, hd, List.length_append, List.length_singleton]
        congr 1
        rw [pow_succ]
        have := Nat.div_add_mod n 10
        nlinarith [this]
      · right
        have hl : 0 < l.length := List.length_pos.mpr h2
        have hn1 : 1 ≤ n / 10 := by omega
        have hlow : 10 ^ (l.length - 1) ≤ n / 10 := by
          rcases h5 with h5 | h5
          · rw [h5]; simpa using hn1
          · exact h5
        simp only [List.length_append, List.length_singleton, Nat.add_sub_cancel]
        have hp : 10 ^ l.length = 10 * 10 ^ (l.length - 1) := by
          rw [← pow_succ']
          congr 1
          omega
        have := Nat.div_add_mod n 10
        omega

/-- The decimal text of a natural number: non-empty, digits only, of value `n`,
without a leading zero. -/
theorem toString_nat_spec (n : Nat) :
    (toString n).toList ≠ [] ∧
    (∀ c ∈ (toString n).toList, ∃ m, digitVal c = some m) ∧
    parseUint (toString n).toList = some n ∧
    ((toString n).toList.length = 1 ∨ 10 ^ ((toString n).toList.length - 1) ≤ n) := by
  obtain ⟨l, h1, h2, h3, h4, h5⟩ := toDigitsCore_spec (n + 1) n [] (by omega)
  have hl : (toString n).toList = l := by
    show Nat.toDigits 10 n = l
    unfold Nat.toDigits
    rw [h1]; simp
  rw [hl]
  refine ⟨h2, h3, ?_, h5⟩
  have := h4 [] 0
  simp only [List.append_nil, zero_mul, zero_add] at this
  unfold parseUint
  cases l with
  | nil => exact absurd rfl h2
  | cons c cs => simpa [parseDigits] using this

/-- A decimal digit is neither a sign nor a line break. -/
theorem digit_not_special (c : Char) (m : Nat) (h : digitVal c = some m) :
    c ≠ '-' ∧ c ≠ '+' ∧ c ≠ '\n' ∧ c ≠ '\r' ∧ c ≠ '=' := by
  unfold digitVal at h
  split_ifs at h with hc
  refine ⟨?_, ?_, ?_, ?_, ?_⟩ <;>
  · rintro rfl
    revert hc
    decide

/-- Parsing the decimal text of a 64-bit integer gives the integer back. -/
theorem Atoi_toString (p : Int) (h1 : -2 ^ 63 ≤ p) (h2 : p < 2 ^ 63) :
    Atoi (toString p) = some p := by
  cases p with
  | ofNat m =>
    obtain ⟨a, b, c, _⟩ := toString_nat_spec m
    have hs : (toString (Int.ofNat m)).toList = (toString m).toList := rfl
    unfold Atoi
    rw [hs]
    cases hl : (toString m).toList with
    | nil => exact absurd hl a
    | cons x xs =>
      obtain ⟨d, hd⟩ := b x (by rw [hl]; simp)
      obtain ⟨n1, n2, _⟩ := digit_not_special x d hd
      rw [hl] at c
      have hm : m < 2 ^ 63 := by
        have h3 : (m : Int) < 2 ^ 63 := h2
        omega
      simp only [n1, n2, if_false, c, hm, if_true]
      rfl
  | negSucc m =>
    obtain ⟨_, _, c, _⟩ := toString_nat_spec (m + 1)
    have hs : (toString (Int.negSucc m)).toList = '-' :: (toString (m + 1)).toList := rfl
    unfold Atoi
    rw [hs]
    have hm : m + 1 ≤ 2 ^ 63 := by
      have : -2 ^ 63 ≤ Int.negSucc m := h1
      rw [Int.negSucc_eq] at this
      omega
    simp only [if_true, c, hm]
    rw [Int.negSucc_eq]
    push_cast
    rfl

/-- The decimal text of a natural number has no line break and no `=`. -/
theorem toString_nat_plain (n : Nat) :
    ∀ c ∈ (toString n).toList, c ≠ '\n' ∧ c ≠ '\r' ∧ c ≠ '=' := by
  intro c hc
  obtain ⟨m, hm⟩ := (toString_nat_spec n).2.1 c hc
  obtain ⟨_, _, a, b, d⟩ := digit_not_special c m hm
  exact ⟨a, b, d⟩

/-- The decimal text of an integer has no line break and no `=`. -/
theorem toString_int_plain (p : Int) :
    ∀ c ∈ (toString p).toList, c ≠ '\n' ∧ c ≠ '\r' ∧ c ≠ '=' := by
  cases p with
  | ofNat m => exact toString_nat_plain m
  | negSucc m =>
    intro c hc
    have hs : (toString (Int.negSucc m)).toList = '-' :: (toString (m + 1)).toList := rfl
    rw [hs] at hc
    simp only [List.mem_cons] at hc
    rcases hc with rfl | hc
    · decide
    · exact toString_nat_plain (m + 1) c hc

/-- A text without line-break characters passes `noLineBreak`. -/
theorem noLineBreak_of_plain (s : String)
    (h : ∀ c ∈ s.toList, c ≠ '\n' ∧ c ≠ '\r') : noLineBreak s = true := by
  unfold noLineBreak
  rw [List.all_eq_true]
  intro c hc
  obtain ⟨a, b⟩ := h c hc
  simp [a, b]

/-- A status text that passes the test of `NotifyStatus` has no line break. -/
theorem plain_of_not_containsNewline (s : String) (h : containsNewline s = false) :
    ∀ c ∈ s.toList, c ≠ '\n' ∧ c ≠ '\r' := by
  intro c hc
  unfold containsNewline at h
  have h2 : ¬ (s.toList.any fun c => c = '\n' || c = '\r') = true := by rw [h]; simp
  rw [List.any_eq_true] at h2
  constructor
  · intro he; exact h2 ⟨c, hc, by simp [he]⟩
  · intro he; exact h2 ⟨c, hc, by simp [he]⟩

/-- `NotifyConn` writes no datagram. -/
theorem NotifyConn_written {σ τ : Type} (os : OS σ) (nt : Net τ) (st : NotifyState τ) :
    written (NotifyConn os nt st).2.events = written st.events := by
  unfold NotifyConn
  simp only []
  split_ifs
  · simp [NotifyState.log, written]
  · simp [NotifyState.log, written]
  · split
    · simp [NotifyState.log, written]
    · split <;> simp [NotifyState.log, written]

/-- The write at the end of `Notify` hands exactly the message to the socket. -/
theorem notifyWrite_written {τ : Type} (nt : Net τ) (st : NotifyState τ) (c : Nat)
    (state : String) :
    written (notifyWrite nt st c state).2.events = written st.events ++ [state] := by
  unfold notifyWrite
  simp only []
  split <;> simp [NotifyState.log, written]

/-- `Notify` hands at most one datagram to the socket, and it is its argument,
byte for byte. -/
theorem Notify_written {σ τ : Type} (os : OS σ) (nt : Net τ) (st : NotifyState τ)
    (state : String) :
    ∃ new, written (Notify os nt st state).2.events = written st.events ++ new ∧
      (new = [] ∨ new = [state]) := by
  unfold Notify
  cases hc : st.notifyConn with
  | some c => exact ⟨[state], notifyWrite_written nt st c state, Or.inr rfl⟩
  | none =>
    have hw := NotifyConn_written os nt st
    cases hd : NotifyConn os nt st with
    | mk r st1 =>
      rw [hd] at hw
      cases r with
      | err e => exact ⟨[], by simpa using hw, Or.inl rfl⟩
      | ok c =>
        refine ⟨[state], ?_, Or.inr rfl⟩
        simp only []
        rw [notifyWrite_written]
        simpa using hw

/-- On a settable Value `storeFd` never panics. -/
theorem storeFd_settable {σ : Type} (os : OS σ) (num : Int) (t : GoType) :
    storeFd os num ⟨t, true⟩ ≠ .panicked := by
  unfold storeFd
  have key : ∀ r : Res Handle, Value.Set ⟨t, true⟩ r ≠ .panicked := by
    intro r
    cases r <;> simp [Value.Set]
  split_ifs <;> first | exact key _ | simp

/-- With a single target in slot 0 the distribution loop never panics and never
runs out of fuel: every access `targets[k]` finds the target. -/
theorem bindLoop_single_returns {σ : Type} (os : OS σ) (fds : Int) (ty : GoType)
    (hty : ty.Kind ≠ .Slice) (fuel : Nat) :
    ∀ (i : Nat) (ts : List Target) (lg : List Nat) (t : Target),
      fds ≤ (i : Int) + fuel → ts[k]? = some t → t.typ = .ptr ty →
      ∃ n e ts1 lg1, bindLoop os fds fuel i ts lg = .ret n e ts1 lg1 := by
  have hK : (GoType.ptr ty).Kind = Kind.Ptr := rfl
  have hE : (GoType.ptr ty).Elem = ty := rfl
  induction fuel with
  | zero =>
    intro i ts lg t h _ _
    have : ¬ (i : Int) < fds := by simp at h; omega
    exact ⟨fds, none, ts, lg, by simp [bindLoop, this]⟩
  | succ fuel ih =>
    intro i ts lg t h ht htt
    unfold bindLoop
    split_ifs with hi
    · simp only [ht, htt, hK, hE, hty, ne_eq, not_false_eq_true, and_self, if_true]
      cases hs : storeFd os i ⟨ty, true⟩ with
      | failed err => exact ⟨_, _, _, _, rfl⟩
      | panicked => exact absurd hs (storeFd_settable os i ty)
      | stored hdl =>
        have hk : k < ts.length := by
          obtain ⟨hlen, _⟩ := List.getElem?_eq_some.mp ht
          exact hlen
        simp only []
        exact ih (i + 1) _ _ ⟨.ptr ty, some hdl, t.elems⟩ (by push_cast at h ⊢; omega)
          (List.getElem?_set_self hk) rfl
    · exact ⟨_, _, _, _, rfl⟩

/-- With a single target first in the list, `GetPassedFiles` always returns a
count and an error value. -/
theorem GetPassedFiles_single_returns {σ : Type} (os : OS σ) (s : σ) (t : Target)
    (rest : List Target) (ty : GoType) (htt : t.typ = .ptr ty) (hty : ty.Kind ≠ .Slice) :
    ∃ n e ts1 lg1, GetPassedFiles os s (t :: rest) = .ret n e ts1 lg1 := by
  unfold GetPassedFiles
  simp only []
  split
  · exact ⟨_, _, _, _, rfl⟩
  · exact bindLoop_single_returns os _ ty hty _ 0 (t :: rest) [] t (by simp) (by simp [k]) htt

/-- The same at the targets of the example program with two listening sockets. -/
theorem GetPassedFiles_single_returns_witness :
    ∃ n e ts1 lg1, GetPassedFiles (listenersOS "2") noFlags
      [⟨.ptr .Listener, none, none⟩, ⟨.ptr (.slice .Listener), none, none⟩] = .ret n e ts1 lg1 :=
  GetPassedFiles_single_returns (listenersOS "2") noFlags ⟨.ptr .Listener, none, none⟩
    [⟨.ptr (.slice .Listener), none, none⟩] .Listener rfl (by decide)

/-- A text made of a non-empty key without `=` or line break, then `=`, then a
value without line break is a well-formed datagram. -/
theorem wire_ok (key : List Char) (v : String)
    (hk : keyValueFrom (key ++ ['=']) 0 = true ∧ ∀ c ∈ key, c ≠ '\n' ∧ c ≠ '\r' ∧ c ≠ '=')
    (hv : ∀ c ∈ v.toList, c ≠ '\n' ∧ c ≠ '\r') :
    noLineBreak (String.mk (key ++ ['=']) ++ v) = true ∧
      isKeyValue (String.mk (key ++ ['=']) ++ v) = true := by
  have hl : (String.mk (key ++ ['=']) ++ v).toList = key ++ ['='] ++ v.toList := rfl
  constructor
  · apply noLineBreak_of_plain
    intro c hc
    rw [hl] at hc
    simp only [List.mem_append, List.mem_singleton] at hc
    rcases hc with (hc | hc) | hc
    · exact ⟨(hk.2 c hc).1, (hk.2 c hc).2.1⟩
    · subst hc; decide
    · exact hv c hc
  · unfold isKeyValue
    rw [hl]
    have key_scan : ∀ (l : List Char) (n : Nat) (rest : List Char),
        (∀ c ∈ l, c ≠ '=') →
        keyValueFrom (l ++ ['='] ++ rest) n = keyValueFrom (l ++ ['=']) n := by
      intro l
      induction l with
      | nil => intro n rest _; simp [keyValueFrom]
      | cons c cs ih =>
        intro n rest hne
        have hc : c ≠ '=' := hne c (by simp)
        simp only [List.cons_append, keyValueFrom, hc, if_false]
        exact ih (n + 1) rest (fun x hx => hne x (by simp [hx]))
    rw [key_scan key 0 v.toList (fun c hc => (hk.2 c hc).2.2)]
    exact hk.1

/-! ## Claims C21 to C25 -/

/-- C21 (counterexample): the public function `Notify` hands its argument to the
socket as it is. Called with `"ready\nor not"` on a fresh client whose dial and
write succeed, it writes exactly that datagram, which holds a line feed and has
no `=`. -/
theorem Notify_writes_any_text_counterexample :
    (Notify (procOS 77 (serviceEnv "42235")) okNet freshNotify "ready\nor not").1 = none ∧
    written (Notify (procOS 77 (serviceEnv "42235")) okNet freshNotify "ready\nor not").2.events =
      ["ready\nor not"] ∧
    noLineBreak "ready\nor not" = false ∧ isKeyValue "ready\nor not" = false := by
  decide

/-- C21 (amended): every datagram handed to the notification socket by
`NotifyReady`, `NotifyStatus`, `NotifyErrno`, `NotifyMainPid` and
`NotifyWatchdog`, for every argument and every state of the client, contains no
line feed or carriage return and has the form `KEY=VALUE`; `Notify` itself
hands over its argument unchecked, byte for byte. -/
theorem wrappers_write_key_value {σ τ : Type} (os : OS σ) (nt : Net τ) (st : NotifyState τ) :
    (∃ new, written (NotifyReady os nt st).2.events = written st.events ++ new ∧
      ∀ d ∈ new, noLineBreak d = true ∧ isKeyValue d = true) ∧
    (∀ status, ∃ new,
      written (NotifyStatus os nt st status).2.events = written st.events ++ new ∧
      ∀ d ∈ new, noLineBreak d = true ∧ isKeyValue d = true) ∧
    (∀ errno, ∃ new,
      written (NotifyErrno os nt st errno).2.events = written st.events ++ new ∧
      ∀ d ∈ new, noLineBreak d = true ∧ isKeyValue d = true) ∧
    (∀ pid, ∃ new,
      written (NotifyMainPid os nt st pid).2.events = written st.events ++ new ∧
      ∀ d ∈ new, noLineBreak d = true ∧ isKeyValue d = true) ∧
    (∃ new, written (NotifyWatchdog os nt st).2.events = written st.events ++ new ∧
      ∀ d ∈ new, noLineBreak d = true ∧ isKeyValue d = true) ∧
    (∀ state, ∃ new, written (Notify os nt st state).2.events = written st.events ++ new ∧
      (new = [] ∨ new = [state])) := by
  have key : ∀ state, (noLineBreak state = true ∧ isKeyValue state = true) →
      ∃ new, written (Notify os nt st state).2.events = written st.events ++ new ∧
        ∀ d ∈ new, noLineBreak d = true ∧ isKeyValue d = true := by
    intro state hgood
    obtain ⟨new, h1, h2⟩ := Notify_written os nt st state
    refine ⟨new, h1, ?_⟩
    rcases h2 with rfl | rfl
    · simp
    · intro d hd
      simp only [List.mem_singleton] at hd
      subst hd
      exact hgood
  refine ⟨key _ (by decide), ?_, ?_, ?_, key _ (by decide), fun state => Notify_written os nt st state⟩
  · intro status
    unfold NotifyStatus
    cases hn : containsNewline status with
    | true => exact ⟨[], by simp, by simp⟩
    | false =>
      simp only [Bool.false_eq_true, if_false]
      exact key _ (wire_ok ['S', 'T', 'A', 'T', 'U', 'S'] status (by decide)
        (plain_of_not_containsNewline status hn))
  · intro errno
    exact key _ (wire_ok ['E', 'R', 'R', 'N', 'O'] (toString errno) (by decide)
      (fun c hc => ⟨(toString_nat_plain errno c hc).1, (toString_nat_plain errno c hc).2.1⟩))
  · intro pid
    exact key _ (wire_ok ['M', 'A', 'I', 'N', 'P', 'I', 'D'] (toString pid) (by decide)
      (fun c hc => ⟨(toString_int_plain pid c hc).1, (toString_int_plain pid c hc).2.1⟩))

/-- C22: each convenience wrapper is one call of `Notify` on a fixed-format text
and returns its result unchanged. `NotifyReady` sends `READY=1`; `NotifyStatus(s)`,
for `s` without line feed or carriage return, sends `STATUS=` followed by `s`;
`NotifyErrno(n)` sends `ERRNO=` followed by the decimal digits of `n` (a
non-empty digit text of value `n` without leading zero); `NotifyMainPid(p)` sends
`MAINPID=` followed by the decimal form of `p` (a text that parses back to `p`);
`NotifyWatchdog` sends `WATCHDOG=1`. -/
theorem wrappers_delegate {σ τ : Type} (os : OS σ) (nt : Net τ) (st : NotifyState τ) :
    NotifyReady os nt st = Notify os nt st "READY=1" ∧
    (∀ s, (∀ c ∈ s.toList, c ≠ '\n' ∧ c ≠ '\r') →
      NotifyStatus os nt st s = Notify os nt st ("STATUS=" ++ s)) ∧
    (∀ n : Nat, ∃ ds : List Char,
      NotifyErrno os nt st n = Notify os nt st ("ERRNO=" ++ String.mk ds) ∧
      parseUint ds = some n ∧ (ds.length = 1 ∨ 10 ^ (ds.length - 1) ≤ n)) ∧
    (∀ p : Int, -2 ^ 63 ≤ p → p < 2 ^ 63 → ∃ t : String,
      NotifyMainPid os nt st p = Notify os nt st ("MAINPID=" ++ t) ∧ Atoi t = some p) ∧
    NotifyWatchdog os nt st = Notify os nt st "WATCHDOG=1" := by
  refine ⟨rfl, ?_, ?_, ?_, rfl⟩
  · intro s hs
    have hn : containsNewline s = false := by
      unfold containsNewline
      rw [Bool.eq_false_iff]
      intro h
      rw [List.any_eq_true] at h
      obtain ⟨c, hc, hcc⟩ := h
      obtain ⟨a, b⟩ := hs c hc
      simp [a, b] at hcc
    unfold NotifyStatus
    simp [hn]
  · intro n
    obtain ⟨_, _, c, d⟩ := toString_nat_spec n
    exact ⟨(toString n).toList, rfl, c, d⟩
  · intro p h1 h2
    exact ⟨toString p, rfl, Atoi_toString p h1 h2⟩

/-- C23: for every mask, after `ClearEnv(mask)` each of `LISTEN_PID`, `LISTEN_FDS`,
`NOTIFY_SOCKET`, `WATCHDOG_PID` and `WATCHDOG_USEC` is the empty text if its flag
bit is absent from the mask and keeps its value if the bit is present; every
other variable keeps its value and every `Setenv` call names one of the five
with the empty value. The group mask `Listen` exempts exactly `LISTEN_PID` and
`LISTEN_FDS`, and `Watchdog` exactly `WATCHDOG_PID` and `WATCHDOG_USEC`. -/
theorem ClearEnv_spec (e : EnvState) (mask : Nat) :
    (∀ key, (ClearEnv e mask).env key =
      if (key = "LISTEN_PID" ∧ mask &&& ListenPid = 0) ∨
          (key = "LISTEN_FDS" ∧ mask &&& ListenFds = 0) ∨
          (key = "NOTIFY_SOCKET" ∧ mask &&& NotifySocket = 0) ∨
          (key = "WATCHDOG_PID" ∧ mask &&& WatchdogPid = 0) ∨
          (key = "WATCHDOG_USEC" ∧ mask &&& WatchdogUsec = 0) then ""
      else e.env key) ∧
    (∃ new, (ClearEnv e mask).setenvs = e.setenvs ++ new ∧
      ∀ c ∈ new, c.2 = "" ∧
        ((c.1 = "LISTEN_PID" ∧ mask &&& ListenPid = 0) ∨
          (c.1 = "LISTEN_FDS" ∧ mask &&& ListenFds = 0) ∨
          (c.1 = "NOTIFY_SOCKET" ∧ mask &&& NotifySocket = 0) ∨
          (c.1 = "WATCHDOG_PID" ∧ mask &&& WatchdogPid = 0) ∨
          (c.1 = "WATCHDOG_USEC" ∧ mask &&& WatchdogUsec = 0))) ∧
    (∀ key, (ClearEnv e Listen).env key =
      if key = "NOTIFY_SOCKET" ∨ key = "WATCHDOG_PID" ∨ key = "WATCHDOG_USEC" then ""
      else e.env key) ∧
    (∀ key, (ClearEnv e Watchdog).env key =
      if key = "LISTEN_PID" ∨ key = "LISTEN_FDS" ∨ key = "NOTIFY_SOCKET" then ""
      else e.env key) := by
  have main : ∀ (m : Nat) (key : String), (ClearEnv e m).env key =
      if (key = "LISTEN_PID" ∧ m &&& ListenPid = 0) ∨
          (key = "LISTEN_FDS" ∧ m &&& ListenFds = 0) ∨
          (key = "NOTIFY_SOCKET" ∧ m &&& NotifySocket = 0) ∨
          (key = "WATCHDOG_PID" ∧ m &&& WatchdogPid = 0) ∨
          (key = "WATCHDOG_USEC" ∧ m &&& WatchdogUsec = 0) then ""
      else e.env key := by
    intro m key
    unfold ClearEnv
    by_cases h1 : m &&& ListenPid = 0 <;> by_cases h2 : m &&& ListenFds = 0 <;>
      by_cases h3 : m &&& NotifySocket = 0 <;> by_cases h4 : m &&& WatchdogPid = 0 <;>
      by_cases h5 : m &&& WatchdogUsec = 0 <;>
      simp only [h1, h2, h3, h4, h5, if_true, if_false, unset, Function.update_apply,
        and_true, and_false, or_false, false_or] <;>
      by_cases k1 : key = "LISTEN_PID" <;> by_cases k2 : key = "LISTEN_FDS" <;>
      by_cases k3 : key = "NOTIFY_SOCKET" <;> by_cases k4 : key = "WATCHDOG_PID" <;>
      by_cases k5 : key = "WATCHDOG_USEC" <;>
      simp [k1, k2, k3, k4, k5]
  refine ⟨main mask, ?_, ?_, ?_⟩
  · unfold ClearEnv
    by_cases h1 : mask &&& ListenPid = 0 <;> by_cases h2 : mask &&& ListenFds = 0 <;>
      by_cases h3 : mask &&& NotifySocket = 0 <;> by_cases h4 : mask &&& WatchdogPid = 0 <;>
      by_cases h5 : mask &&& WatchdogUsec = 0 <;>
      simp only [h1, h2, h3, h4, h5, if_true, if_false, unset, List.append_assoc] <;>
      first
        | exact ⟨_, rfl, by simp⟩
        | exact ⟨[], (List.append_nil _).symm, by simp⟩
  · intro key
    rw [main Listen key]
    have a1 : Listen &&& ListenPid ≠ 0 := by decide
    have a2 : Listen &&& ListenFds ≠ 0 := by decide
    have a3 : Listen &&& NotifySocket = 0 := by decide
    have a4 : Listen &&& WatchdogPid = 0 := by decide
    have a5 : Listen &&& WatchdogUsec = 0 := by decide
    simp [a1, a2, a3, a4, a5]
  · intro key
    rw [main Watchdog key]
    have a1 : Watchdog &&& ListenPid = 0 := by decide
    have a2 : Watchdog &&& ListenFds = 0 := by decide
    have a3 : Watchdog &&& NotifySocket = 0 := by decide
    have a4 : Watchdog &&& WatchdogPid ≠ 0 := by decide
    have a5 : Watchdog &&& WatchdogUsec ≠ 0 := by decide
    simp [a1, a2, a3, a4, a5]

/-- C25 (failing input): with one descriptor passed and an empty target list,
the first round of the distribution loop evaluates `targets[0]` on a list of
length 0: `GetPassedFiles` panics instead of returning a count and an error. -/
theorem GetPassedFiles_no_target_panics :
    (listenFds (filesOS "1") noFlags).num_fds = 1 ∧
    (listenFds (filesOS "1") noFlags).err = none ∧
    ([] : List Target)[k]? = none ∧
    GetPassedFiles (filesOS "1") noFlags [] = .panicked [] [] := by
  decide

/-! ## The discovery error on the kernel, nil arguments, sockets not in accepting mode -/

/-- The error of the discovery loop is the verdict of the flag pass: as long as
the index stays below `2^63`, the loop entered at `i` with `n` rounds to go
returns an error exactly when the flag pass over the `n` descriptors from `i`
meets a failing system call. -/
theorem listenFdsLoop_err_iff {σ : Type} (os : OS σ) (l : Int) (n : Nat) :
    ∀ (i : Int) (s : σ), 0 ≤ i → i + n ≤ 2 ^ 63 →
      ((listenFdsLoop os l n i s).err ≠ none ↔ flagPassFails os n i.toNat s = true) := by
  induction n with
  | zero => intro i s _ _; simp [listenFdsLoop, flagPassFails]
  | succ n ih =>
    intro i s h0 hb
    have hu : uintptr i = i.toNat := uintptr_toNat i h0 (by omega)
    have h1 : (i + 1).toNat = i.toNat + 1 := by omega
    have hb1 : i + 1 + (n : Int) ≤ 2 ^ 63 := by push_cast at hb; omega
    unfold listenFdsLoop flagPassFails
    simp only [hu]
    by_cases e1 : (os.Syscall s SYS_FCNTL i.toNat F_GETFL 0).1.errno = 0
    · by_cases e2 : (os.Syscall s SYS_FCNTL i.toNat F_GETFL 0).1.r1 &&& FD_CLOEXEC = 0
      · by_cases e3 : (os.Syscall (os.Syscall s SYS_FCNTL i.toNat F_GETFL 0).2 SYS_FCNTL i.toNat
            F_SETFL ((os.Syscall s SYS_FCNTL i.toNat F_GETFL 0).1.r1 ||| FD_CLOEXEC)).1.errno = 0
        · simp only [e1, e2, e3, ne_eq, not_true_eq_false, if_false, Discovery.after]
          have := ih (i + 1) (os.Syscall (os.Syscall s SYS_FCNTL i.toNat F_GETFL 0).2 SYS_FCNTL
            i.toNat F_SETFL ((os.Syscall s SYS_FCNTL i.toNat F_GETFL 0).1.r1 ||| FD_CLOEXEC)).2
            (by omega) hb1
          rw [h1] at this
          simpa using this
        · simp [e1, e2, e3]
      · simp only [e1, e2, ne_eq, not_true_eq_false, not_false_eq_true, if_false, if_true,
          Discovery.after]
        have := ih (i + 1) (os.Syscall s SYS_FCNTL i.toNat F_GETFL 0).2 (by omega) hb1
        rw [h1] at this
        simpa using this
    · simp [e1]

/-- A flag pass whose first query fails meets a failing system call, however many
descriptors are to follow. -/
theorem flagPassFails_first {σ : Type} (os : OS σ) (n fd : Nat) (s : σ)
    (h : (os.Syscall s SYS_FCNTL fd F_GETFL 0).1.errno ≠ 0) :
    flagPassFails os (n + 1) fd s = true := by
  simp [flagPassFails, h]

/-- The error of `listenFds` read on the kernel: when the count of `LISTEN_FDS`
keeps the loop bound within the `int` range (`n + 3 < 2^63`), `listenFds`
returns a non-nil error exactly when `LISTEN_PID` is non-empty and not a
parseable integer, or `LISTEN_PID` equals the current pid and `LISTEN_FDS` is
non-empty and either unparseable or negative, or, with a valid non-negative count
`n`, the flag pass over the descriptors `3 .. 3+n-1` meets a failing flag query or
flag set, whatever the kernel is; and an error comes with the count 0. -/
theorem listenFds_error_iff_kernel {σ : Type} (os : OS σ) (s : σ)
    (hb : ∀ n, Atoi (os.Getenv "LISTEN_FDS") = some n → n + 3 < 2 ^ 63) :
    ((listenFds os s).err ≠ none ↔
      (os.Getenv "LISTEN_PID" ≠ "" ∧ Atoi (os.Getenv "LISTEN_PID") = none) ∨
      (Atoi (os.Getenv "LISTEN_PID") = some os.Getpid ∧ os.Getenv "LISTEN_FDS" ≠ "" ∧
        (Atoi (os.Getenv "LISTEN_FDS") = none ∨
          ∃ n, Atoi (os.Getenv "LISTEN_FDS") = some n ∧ n < 0)) ∨
      (Atoi (os.Getenv "LISTEN_PID") = some os.Getpid ∧
        ∃ n, Atoi (os.Getenv "LISTEN_FDS") = some n ∧ 0 ≤ n ∧
          flagPassFails os n.toNat 3 s = true)) ∧
    ((listenFds os s).err ≠ none → (listenFds os s).num_fds = 0) := by
  refine ⟨?_, listenFds_err_count os s⟩
  by_cases hp : os.Getenv "LISTEN_PID" = ""
  · have : listenFds os s = ⟨0, none, s, []⟩ := by unfold listenFds; simp [hp]
    simp [this, hp, Atoi_empty]
  · cases hA : Atoi (os.Getenv "LISTEN_PID") with
    | none =>
      have : listenFds os s = ⟨0, some (.atoi (os.Getenv "LISTEN_PID")), s, []⟩ := by
        unfold listenFds; simp [hp, hA]
      simp [this, hp]
    | some l =>
      by_cases hl : l = os.Getpid
      · subst hl
        by_cases hf : os.Getenv "LISTEN_FDS" = ""
        · have : listenFds os s = ⟨0, none, s, []⟩ := by unfold listenFds; simp [hp, hA, hf]
          simp [this, hp, hf, Atoi_empty]
        · cases hB : Atoi (os.Getenv "LISTEN_FDS") with
          | none =>
            have : listenFds os s = ⟨0, some (.atoi (os.Getenv "LISTEN_FDS")), s, []⟩ := by
              unfold listenFds; simp [hp, hA, hf, hB]
            simp [this, hp, hf]
          | some n =>
            by_cases hn : n < 0
            · have : listenFds os s =
                  ⟨0, some (.msg "Got negative number of filedescriptors"), s, []⟩ := by
                unfold listenFds; simp [hp, hA, hf, hB, hn]
              simp [this, hp, hf, hn]
            · have hn0 : 0 ≤ n := by omega
              rw [listenFds_eq_loop os s n hA hB hn0 (hb n hB)]
              have hbn : listenFdsStart + ((n.toNat : Nat) : Int) ≤ 2 ^ 63 := by
                have := hb n hB
                unfold listenFdsStart
                omega
              have key := listenFdsLoop_err_iff os n n.toNat listenFdsStart s (by decide) hbn
              have h3 : listenFdsStart.toNat = 3 := by decide
              rw [h3] at key
              rw [key]
              simp [hp, hf, hn, hn0]
      · have : listenFds os s = ⟨0, none, s, []⟩ := by unfold listenFds; simp [hp, hA, hl]
        simp [this, hp, hl]

/-- The test cases `GetflErr` and `SetflErr` read through
`listenFds_error_iff_kernel`: with `LISTEN_FDS=1` a kernel that fails the flag
query on descriptor 3, and one that answers flags without `FD_CLOEXEC` and then
fails the flag set, both make `listenFds` return an error and the count 0. -/
theorem listenFds_error_iff_kernel_witness :
    ((listenFds (deadOS "1") ()).err ≠ none ∧ (listenFds (deadOS "1") ()).num_fds = 0) ∧
    ((listenFds (setflErrOS "1") ()).err ≠ none ∧
      (listenFds (setflErrOS "1") ()).num_fds = 0) :=
  ⟨⟨(listenFds_error_iff_kernel (deadOS "1") ()
        (fun n h => by
          have h1 : Atoi "1" = some 1 := by decide
          have : n = 1 := Option.some.inj (h.symm.trans h1)
          subst this; decide)).1.2
      (Or.inr (Or.inr ⟨by decide, 1, by decide, by decide, by decide⟩)),
    (listenFds_error_iff_kernel (deadOS "1") () (fun n h => by
          have h1 : Atoi "1" = some 1 := by decide
          have : n = 1 := Option.some.inj (h.symm.trans h1)
          subst this; decide)).2 (by decide)⟩,
   ⟨(listenFds_error_iff_kernel (setflErrOS "1") ()
        (fun n h => by
          have h1 : Atoi "1" = some 1 := by decide
          have : n = 1 := Option.some.inj (h.symm.trans h1)
          subst this; decide)).1.2
      (Or.inr (Or.inr ⟨by decide, 1, by decide, by decide, by decide⟩)),
    (listenFds_error_iff_kernel (setflErrOS "1") () (fun n h => by
          have h1 : Atoi "1" = some 1 := by decide
          have : n = 1 := Option.some.inj (h.symm.trans h1)
          subst this; decide)).2 (by decide)⟩⟩

/-- C8 (failing input): with `LISTEN_PID` the current pid,
`LISTEN_FDS=9223372036854775807` and a kernel on which every `fcntl` fails with
`EBADF`, the flag query on descriptor 3, a descriptor of the range, fails and the
flag pass over the range meets that failure, yet `listenFds` returns the count
`9223372036854775807` with a nil error and without a single system call: the
loop bound `listenFdsStart+l` has wrapped below 3. With `LISTEN_FDS=2` on the same
kernel the failing query is met and `listenFds` returns `(0, EBADF)`. -/
theorem listenFds_overflow_misses_failing_query :
    Atoi "9223372036854775807" = some (2 ^ 63 - 1) ∧
    ((deadOS "9223372036854775807").Syscall () SYS_FCNTL 3 F_GETFL 0).1.errno = 9 ∧
    flagPassFails (deadOS "9223372036854775807") (2 ^ 63 - 1) 3 () = true ∧
    (listenFds (deadOS "9223372036854775807") ()).err = none ∧
    (listenFds (deadOS "9223372036854775807") ()).num_fds = 2 ^ 63 - 1 ∧
    (listenFds (deadOS "9223372036854775807") ()).calls = [] ∧
    flagPassFails (deadOS "2") 2 3 () = true ∧
    (listenFds (deadOS "2") ()).err = some (.errno 9) ∧
    (listenFds (deadOS "2") ()).num_fds = 0 ∧
    (listenFds (deadOS "2") ()).calls = [⟨SYS_FCNTL, 3, F_GETFL, 0, 2 ^ 64 - 1, 9⟩] := by
  refine ⟨by decide, by decide, ?_, by decide, by decide, by decide, by decide, by decide,
    by decide, by decide⟩
  have h : (2 ^ 63 - 1 : Nat) = (2 ^ 63 - 2) + 1 := by norm_num
  rw [h]
  exact flagPassFails_first _ _ _ _ (by decide)

/-- On arguments none of which is nil, the loop on arguments is the loop of
`GetPassedFiles` on targets. -/
theorem bindLoopAny_values {σ : Type} (os : OS σ) (fds : Int) (fuel : Nat) :
    ∀ (i : Nat) (ts : List Target) (lg : List Nat),
      bindLoopAny os fds fuel i (ts.map Arg.value) lg = (bindLoop os fds fuel i ts lg).any := by
  induction fuel with
  | zero =>
    intro i ts lg
    unfold bindLoopAny bindLoop
    split_ifs <;> rfl
  | succ fuel ih =>
    intro i ts lg
    unfold bindLoopAny bindLoop
    by_cases hi : (i : Int) < fds
    · simp only [hi, if_true, List.getElem?_map]
      cases hk : ts[k]? with
      | none => rfl
      | some t =>
        simp only [Option.map_some']
        by_cases c1 : t.typ.Kind = .Ptr ∧ t.typ.Elem.Kind ≠ .Slice
        · rw [if_pos c1, if_pos c1]
          cases hst : storeFd os i ⟨t.typ.Elem, true⟩ with
          | failed err => rfl
          | panicked => rfl
          | stored h =>
            simp only []
            rw [← ih, List.map_set]
        · by_cases c2 : t.typ.Kind = .Slice
          · rw [if_neg c1, if_neg c1, if_pos c2, if_pos c2]
            cases hf : fillSlice os fds t.typ.Elem (sliceLen t.elems) i lg with
            | failed err lg1 => rfl
            | panicked lg1 => rfl
            | done i1 lg1 => simp only []; rw [← ih]
          · by_cases c3 : t.typ.Kind = .Ptr ∧ t.typ.Elem.Kind = .Slice
            · rw [if_neg c1, if_neg c1, if_neg c2, if_neg c2, if_pos c3, if_pos c3]
              have ha : (match t.elems with
                  | none => some (List.replicate (fds - i).toNat none)
                  | some xs => some xs) = allocSlice fds i t.elems := by
                unfold allocSlice; cases t.elems <;> rfl
              rw [ha]
              cases hf : fillSlice os fds t.typ.Elem.Elem (sliceLen (allocSlice fds i t.elems)) i lg with
              | failed err lg1 => simp only [Outcome.any, List.map_set]
              | panicked lg1 => simp only [Outcome.any, List.map_set]
              | done i1 lg1 => simp only []; rw [← ih, List.map_set]
            · rw [if_neg c1, if_neg c1, if_neg c2, if_neg c2, if_neg c3, if_neg c3]
              rfl
    · simp only [hi, if_false]
      rfl

/-- On arguments none of which is nil, `GetPassedFilesAny` is `GetPassedFiles`. -/
theorem GetPassedFilesAny_values {σ : Type} (os : OS σ) (s : σ) (ts : List Target) :
    GetPassedFilesAny os s (ts.map Arg.value) = (GetPassedFiles os s ts).any := by
  unfold GetPassedFilesAny GetPassedFiles
  simp only []
  cases h : (listenFds os s).err with
  | some e => rfl
  | none => exact bindLoopAny_values os _ _ 0 ts []

/-- A nil argument in front: with at least one descriptor passed,
`GetPassedFiles(nil, ...)` panics at `rv.Type()` before any descriptor is
opened, and a nil pointer in front panics inside `storeFd(0, rv.Elem())`; with
no descriptor passed the arguments are not looked at and the call returns
`(0, nil)`. -/
theorem GetPassedFilesAny_nil_first {σ : Type} (os : OS σ) (s : σ) (rest : List Arg)
    (hd : (listenFds os s).err = none) :
    (1 ≤ (listenFds os s).num_fds →
      GetPassedFilesAny os s (.nilInterface :: rest) = .panicked (.nilInterface :: rest) [] ∧
      ∀ ty, GetPassedFilesAny os s (.nilPtr ty :: rest) = .panicked (.nilPtr ty :: rest) [0]) ∧
    ((listenFds os s).num_fds = 0 → ∀ args, GetPassedFilesAny os s args = .ret 0 none args []) := by
  constructor
  · intro hN
    obtain ⟨f, hf⟩ : ∃ f, (listenFds os s).num_fds.toNat = f + 1 :=
      ⟨(listenFds os s).num_fds.toNat - 1, by omega⟩
    have hlt : (0 : Int) < (listenFds os s).num_fds := by omega
    refine ⟨?_, fun ty => ?_⟩
    · unfold GetPassedFilesAny
      simp only [hd]
      rw [hf]
      unfold bindLoopAny
      simp [hlt, k]
    · unfold GetPassedFilesAny
      simp only [hd]
      rw [hf]
      unfold bindLoopAny
      simp [hlt, k]
  · intro h0 args
    unfold GetPassedFilesAny
    simp only [hd, h0]
    unfold bindLoopAny
    simp

/-- One regular file passed and `GetPassedFiles(nil)`: a panic, no error value. -/
theorem GetPassedFilesAny_nil_first_witness :
    GetPassedFilesAny (filesOS "1") noFlags [.nilInterface] = .panicked [.nilInterface] [] ∧
    ∀ ty, GetPassedFilesAny (filesOS "1") noFlags [.nilPtr ty] = .panicked [.nilPtr ty] [0] :=
  (GetPassedFilesAny_nil_first (filesOS "1") noFlags [] (by decide)).1 (by decide)

/-- C17 (failing input): one descriptor is passed, descriptor 3 is a connected TCP
socket, not in accepting mode, and the target is a `*net.TCPListener`.
`net.FileListener` builds a `*net.TCPListener` from it, the type assertion of
`getTCPListener` succeeds, and `storeFd` stores the listener with a nil error:
`GetPassedFiles(&l)` returns `(1, nil)` with `l` set. The connected socket is
likewise stored as a `*net.TCPConn` when that is requested, and a socket in
accepting mode is stored as a `*net.TCPConn` too. -/
theorem storeFd_connected_socket_as_listener :
    FdKind.accepting .tcpConnected = false ∧
    (connectedOS "1").FileListener 3 = some (.ptr .TCPListener) ∧
    storeFd (connectedOS "1") 0 ⟨.ptr .TCPListener, true⟩ = .stored ⟨.ptr .TCPListener, 3⟩ ∧
    GetPassedFiles (connectedOS "1") noFlags [⟨.ptr (.ptr .TCPListener), none, none⟩] =
      .ret 1 none [⟨.ptr (.ptr .TCPListener), some ⟨.ptr .TCPListener, 3⟩, none⟩] [0] ∧
    storeFd (connectedOS "1") 0 ⟨.ptr .TCPConn, true⟩ = .stored ⟨.ptr .TCPConn, 3⟩ ∧
    storeFd (kindOS "1" fun _ => .tcpListening) 0 ⟨.ptr .TCPConn, true⟩ =
      .stored ⟨.ptr .TCPConn, 3⟩ := by
  decide

end Systemd
